import Mathlib

/-!
Verification of the preflight / missing-data pipeline of `payroll_pipeline.py`
(region enrichment, missing-field detection, missing-field resolution).

The Python documents are JSON-like values: nested string-keyed mappings,
sequences, numbers, strings, booleans and `None`.  We embed them as the
inductive type `JVal`; Python dicts become insertion-ordered association
lists (a real Python dict has unique keys; all operations below only ever
produce lists whose key set evolves exactly as the dict's does).  Numbers
are embedded as rationals (`Rat`): the only numeric operations in the
source are parsing decimal literals and the identity coercion `float(v)`,
so no floating-point rounding behaviour is observable in any property we
state.  Python exceptions (TypeError / AttributeError / ValueError /
KeyError) are modelled with `Option` / `Except`: a `none` / `.error`
result means the corresponding Python call raises.
-/

/-- A JSON-like Python value: `None`, bool, number, string, dict, list. -/
inductive JVal where
  | null : JVal
  | bool : Bool → JVal
  | num : Rat → JVal
  | str : String → JVal
  | obj : List (String × JVal) → JVal
  | arr : List JVal → JVal

/-- Fields of a Python dict, in insertion order. -/
abbrev JObj := List (String × JVal)

/-- Python `d[k]` / `d.get(k)` on a dict's fields: first (only) binding of `k`. -/
def assocGet : JObj → String → Option JVal
  | [], _ => none
  | (k, v) :: rest, key => if k = key then some v else assocGet rest key

/-- Python `d[k] = v`: replace the binding in place, or append a new one. -/
def assocSet : JObj → String → JVal → JObj
  | [], key, v => [(key, v)]
  | (k, w) :: rest, key, v =>
    if k = key then (key, v) :: rest else (k, w) :: assocSet rest key v

/-- Python `d.setdefault(k, dflt)`: returns the (retrieved or inserted) value
together with the updated fields. -/
def assocSetdefault (g : JObj) (key : String) (dflt : JVal) : JVal × JObj :=
  match assocGet g key with
  | some v => (v, g)
  | none => (dflt, g ++ [(key, dflt)])

/-- Python truthiness (`bool(v)`): `None`, `False`, `0`, `""`, `{}`, `[]` are falsy. -/
def truthy : JVal → Bool
  | .null => false
  | .bool b => b
  | .num q => decide (q ≠ 0)
  | .str s => decide (s ≠ "")
  | .obj [] => false
  | .obj (_ :: _) => true
  | .arr [] => false
  | .arr (_ :: _) => true

/-- Python `v is None` test. -/
def JVal.isNull : JVal → Bool
  | .null => true
  | _ => false

/-- Python `isinstance(v, (dict, list))`, the intermediate-segment test of `_set_by_path`. -/
def JVal.isDictOrList : JVal → Bool
  | .obj _ => true
  | .arr _ => true
  | _ => false

mutual
/-- Approximation of Python `str(v)` used only to build prompt/warning text
(`None` / `True` / `False` / numbers / strings render as in Python; the Rat
embedding does not retain Python's int/float distinction, and containers are
rendered JSON-style rather than with Python's `repr`). -/
def pyStr : JVal → String
  | .null => "None"
  | .bool b => if b then "True" else "False"
  | .num q => if q.den = 1 then toString q.num else toString q.num ++ "/" ++ toString q.den
  | .str s => s
  | .obj fs => "\x7b" ++ pyStrFields fs ++ "\x7d"
  | .arr xs => "[" ++ pyStrElems xs ++ "]"

def pyStrFields : JObj → String
  | [] => ""
  | [(k, v)] => k ++ ": " ++ pyStr v
  | (k, v) :: rest => k ++ ": " ++ pyStr v ++ ", " ++ pyStrFields rest

def pyStrElems : List JVal → String
  | [] => ""
  | [v] => pyStr v
  | v :: rest => pyStr v ++ ", " ++ pyStrElems rest
end

/-- Two-level read `doc[k1][k2]`, `none` when any level is absent or not a dict. -/
def jGet2 (v : JVal) (k1 k2 : String) : Option JVal :=
  match v with
  | .obj fs =>
    match assocGet fs k1 with
    | some (.obj h) => assocGet h k2
    | _ => none
  | _ => none

/-- ASCII lower-casing of one character (the fragment of `str.lower` the
source relies on: the compared names are ASCII). -/
def asciiLowerChar (c : Char) : Char :=
  if 65 ≤ c.toNat ∧ c.toNat ≤ 90 then Char.ofNat (c.toNat + 32) else c

/-- Model of Python `str.lower()`. -/
def pyLower (s : String) : String := String.mk (s.toList.map asciiLowerChar)

/-- Model of Python `str.strip()` (whitespace at both ends). -/
def pyTrim (s : String) : String :=
  String.mk (((s.toList.dropWhile Char.isWhitespace).reverse.dropWhile Char.isWhitespace).reverse)

/-- Split a character list at every occurrence of `c` (Python `str.split(c)`). -/
def splitOnChar (c : Char) : List Char → List (List Char)
  | [] => [[]]
  | x :: rest =>
    match splitOnChar c rest with
    | [] => [[]]
    | grp :: gs => if x = c then [] :: grp :: gs else (x :: grp) :: gs

/-- Model of Python `str.split(sep)` for a one-character separator. -/
def pySplit (s : String) (c : Char) : List String := (splitOnChar c s.toList).map String.mk

/-- Model of `value_str.replace(",", ".")`. -/
def pyReplaceCommaDot (s : String) : String :=
  String.mk (s.toList.map (fun c => if c = ',' then '.' else c))

/-! ## Missing-field descriptors and the detector (`detect_missing`) -/

/-- The `MissingField` dataclass.  Python's `None` (both for "no default" and a
`None` default, which the source conflates via `is not None`) is `.null`;
`enum=None` is the empty list (the source only tests its truthiness). -/
structure MissingField where
  path : String
  question : String
  hint : String
  type : String
  enum : List String := []
  default : JVal := .null

/-- The comparison `it.get("name", "").lower() == "plus convenio"` for one sequence element;
`none` when the element is not a dict or its name is not a string. -/
def lowerNameIsPlus (it : JVal) : Option Bool :=
  match it with
  | .obj f =>
    match (assocGet f "name").getD (.str "") with
    | .str s => some (pyLower s == "plus convenio")
    | _ => none
  | _ => none

/-- Python `any(it.get("name","").lower() == "plus convenio" for it in xs)`:
short-circuits at the first `True`, as Python's `any` does. -/
def anyPlusList : List JVal → Option Bool
  | [] => some false
  | it :: rest =>
    match lowerNameIsPlus it with
    | some true => some true
    | some false => anyPlusList rest
    | none => none

/-- The same `any(...)` over an arbitrary value: lists iterate their elements;
empty dicts/strings iterate nothing; anything else raises in Python. -/
def anyPlusName : JVal → Option Bool
  | .arr xs => anyPlusList xs
  | .obj [] => some false
  | .str "" => some false
  | _ => none

/-- The test `any(... for it in payload.get("collective_agreement", {}).get("allowances", []))`. -/
def hasPlusInAllowances (fs : JObj) : Option Bool :=
  match (assocGet fs "collective_agreement").getD (.obj []) with
  | .obj caf => anyPlusName ((assocGet caf "allowances").getD (.arr []))
  | _ => none

/-- The test `any(... for v in payload.get("compensation", {}).get("variables", []))`. -/
def hasPlusInComp (fs : JObj) : Option Bool :=
  match (assocGet fs "compensation").getD (.obj []) with
  | .obj cf => anyPlusName ((assocGet cf "variables").getD (.arr []))
  | _ => none

/-- The `MissingField` for the "Plus Convenio" monthly amount. -/
def plusConvenioGap : MissingField :=
  { path := "compensation.plus_convenio_amount"
    question := "¿Importe mensual del \x27Plus Convenio\x27 (€)?"
    hint := "Introduce la cuantía bruta mensual."
    type := "number"
    default := .num 0 }

/-- The `MissingField` for the AT/EP tariff percentage. -/
def atepTariffGap : MissingField :=
  { path := "company.atep_tariff_pct"
    question := "Sin CNAE: indica tarifa AT/EP (%) p.ej. 1.50"
    hint := "Si conoces el CNAE, mejor añádelo y deja vacío aquí."
    type := "number"
    default := .num (mkRat 3 2) }

/-- The `MissingField` for the contribution-table year (default: the period's year). -/
def cotizationYearGap (periodYear : JVal) : MissingField :=
  { path := "tables.cotization_year"
    question := "¿Año de tablas de cotización a aplicar? (p.ej. " ++ pyStr periodYear ++ ")"
    hint := "Normalmente coincide con el año del período."
    type := "number"
    default := periodYear }

/-- The `MissingField` for the IRPF-table year (default: the period's year). -/
def irpfYearGap (periodYear : JVal) : MissingField :=
  { path := "tables.irpf_year"
    question := "¿Año de tablas IRPF a aplicar? (p.ej. " ++ pyStr periodYear ++ ")"
    hint := "AEAT o forales del ejercicio."
    type := "number"
    default := periodYear }

/-- The `MissingField` for the base-salary CRA code. -/
def craCodeGap : MissingField :=
  { path := "compensation.base_salary_cra_code"
    question := "Código CRA para salario base (p.ej. C01):"
    hint := "Si no sabes, usa C01."
    type := "string"
    default := .str "C01" }

/-- The `MissingField` for the worker's NIF. -/
def nifGap : MissingField :=
  { path := "worker.nif"
    question := "NIF del trabajador (formato 12345678Z). Déjalo vacío si no aplica:"
    hint := "No afecta al cálculo pero sí a trazabilidad."
    type := "string"
    default := .str "NO-INFORMADO" }

/-- The `MissingField` for the IRPF regime (enum with three permitted values). -/
def irpfRegimeGap : MissingField :=
  { path := "region_config.irpf_regime"
    question := "Régimen IRPF (AEAT | FORAL_NAVARRA | FORAL_PV):"
    hint := "Por Cataluña: AEAT."
    type := "enum"
    enum := ["AEAT", "FORAL_NAVARRA", "FORAL_PV"]
    default := .str "AEAT" }

/-- The seven detector rules, in source order, as a function of the values the
detector reads (`hpa`/`hpc` are the two "Plus Convenio" `any(...)` results,
`cof`/`tbf`/`cmf`/`wkf`/`rcf` are the fields of the company / tables /
compensation / worker / region_config dicts — `[]` when the dict is absent —
and `py` is `payload.get("period", {}).get("year")`). -/
def detectGaps (hpa hpc : Bool) (cof : JObj) (py : JVal) (tbf cmf wkf rcf : JObj) :
    List MissingField :=
  (if hpa && !hpc then [plusConvenioGap] else [])
  ++ (if !truthy ((assocGet cof "cnae").getD .null)
        && !truthy ((assocGet cof "atep_tariff_pct").getD .null) then [atepTariffGap] else [])
  ++ (if !truthy ((assocGet tbf "cotization_year").getD .null) then [cotizationYearGap py] else [])
  ++ (if !truthy ((assocGet tbf "irpf_year").getD .null) then [irpfYearGap py] else [])
  ++ (if !truthy ((assocGet cmf "base_salary_cra_code").getD .null) then [craCodeGap] else [])
  ++ (if !truthy ((assocGet wkf "nif").getD .null) then [nifGap] else [])
  ++ (if !truthy ((assocGet rcf "irpf_regime").getD .null) then [irpfRegimeGap] else [])

/-- The detector `detect_missing(payload)`.  Returns the ordered gap list together with the
payload as mutated by the two `setdefault` probes (`company`, `tables`);
`none` models a Python `TypeError`/`AttributeError` (e.g. a substructure that
is present but not a dict, or a sequence element without `.get`). -/
def detect_missing (payload : JVal) : Option (List MissingField × JVal) :=
  match payload with
  | .obj fs =>
    match hasPlusInAllowances fs, hasPlusInComp fs with
    | some hpa, some hpc =>
      match assocSetdefault fs "company" (.obj []) with
      | (.obj cof, fs1) =>
        match (assocGet fs1 "period").getD (.obj []) with
        | .obj pef =>
          match assocSetdefault fs1 "tables" (.obj []) with
          | (.obj tbf, fs2) =>
            match (assocGet fs2 "compensation").getD (.obj []),
                  (assocGet fs2 "worker").getD (.obj []),
                  (assocGet fs2 "region_config").getD (.obj []) with
            | .obj cmf, .obj wkf, .obj rcf =>
              some (detectGaps hpa hpc cof ((assocGet pef "year").getD .null) tbf cmf wkf rcf,
                    .obj fs2)
            | _, _, _ => none
          | (_, _) => none
        | _ => none
      | (_, _) => none
    | _, _ => none
  | _ => none

/-! ## The resolver (`resolve_missing`) and its helpers -/

/-- Python `_set_by_path(d, path_parts, value)`, rebuilt functionally: the Python
function walks `path_parts[:-1]`, replacing any intermediate that is neither a
dict nor a list by a fresh `{}`, and finally assigns `cur[parts[-1]] = value`.
`none` models the `TypeError` Python raises when the walk lands on a list (or
any other non-dict) and is then indexed with a string key.  (A raising call
never mutates the document: the only in-place writes are the `{}` insertions,
and once a fresh `{}` has been entered every remaining step succeeds.) -/
def _set_by_path (cur : JVal) (path_parts : List String) (value : JVal) : Option JVal :=
  match path_parts with
  | [] => none
  | [last] =>
    match cur with
    | .obj fs => some (.obj (assocSet fs last value))
    | _ => none
  | p :: q :: rs =>
    match cur with
    | .obj fs =>
      let child :=
        match assocGet fs p with
        | some c => if c.isDictOrList then c else .obj []
        | none => .obj []
      match _set_by_path child (q :: rs) value with
      | some child2 => some (.obj (assocSet fs p child2))
      | none => none
    | _ => none

/-- Python `repr` of a list of strings, as interpolated by an f-string
(`"{mf.enum}"` renders as `['AEAT', 'FORAL_NAVARRA', 'FORAL_PV']`). -/
def pyListRepr (xs : List String) : String :=
  "[" ++ String.intercalate ", " (xs.map (fun s => "\x27" ++ s ++ "\x27")) ++ "]"

/-- Digit-string value (helper for the model of `float(...)`). -/
def decDigitsVal (l : List Char) : Nat :=
  l.foldl (fun n c => n * 10 + (c.toNat - 48)) 0

/-- Model of the Python builtin `float(str)` (external to the repository):
optional surrounding whitespace and sign, decimal digits with an optional
point.  Exponents, `inf`/`nan` and underscores are not modelled; on those the
model is merely stricter than Python, which no stated property depends on. -/
def pyFloat (s : String) : Option Rat :=
  let t := (pyTrim s).toList
  let sg : Int := match t with | '-' :: _ => -1 | _ => 1
  let u : List Char :=
    match t with
    | '-' :: rest => rest
    | '+' :: rest => rest
    | _ => t
  match splitOnChar '.' u with
  | [a] =>
    if !a.isEmpty && a.all Char.isDigit then
      some ((sg * (decDigitsVal a : Int) : Int) : Rat)
    else none
  | [a, b] =>
    if (!a.isEmpty || !b.isEmpty) && a.all Char.isDigit && b.all Char.isDigit then
      some ((sg : Rat) * ((decDigitsVal a : Rat)
        + (decDigitsVal b : Rat) / ((10 : Rat) ^ b.length)))
    else none
  | _ => none

/-- Python `_parse_input(value_str, mf)`: number → `float` of the comma-normalised
string; enum → trimmed value checked against the permitted set; otherwise the
trimmed string.  `.error` models the `ValueError`s. -/
def _parse_input (value_str : String) (mf : MissingField) : Except String JVal :=
  if mf.type = "number" then
    match pyFloat (pyReplaceCommaDot value_str) with
    | some q => .ok (.num q)
    | none => .error ("could not convert string to float: \x27"
        ++ pyReplaceCommaDot value_str ++ "\x27")
  else if mf.type = "enum" then
    let v := pyTrim value_str
    if !mf.enum.isEmpty && !mf.enum.contains v then
      .error ("Valor \x27" ++ v ++ "\x27 no está en " ++ pyListRepr mf.enum)
    else .ok (.str v)
  else .ok (.str (pyTrim value_str))

/-- The resolution policy (`missing_policy` string of the source). -/
inductive Policy where
  | ask : Policy
  | default : Policy
  | fail : Policy
deriving DecidableEq

/-- The coercion `float(value) if value is not None else 0.0` of the special-case branch:
the coercion accepts numbers, booleans and numeric strings. -/
def pyFloatCoerce (value : JVal) : Option Rat :=
  match value with
  | .null => some 0
  | .num q => some q
  | .bool b => some (if b then 1 else 0)
  | .str s => pyFloat s
  | _ => none

/-- The fresh variable-pay item inserted for "Plus Convenio", with its
`amount` already assigned (the source appends the item and then sets
`found["amount"]`). -/
def newPlusItem (amt : Rat) : JVal :=
  .obj [("name", .str "Plus Convenio"), ("taxable", .bool true),
        ("contributory", .bool true), ("cra_code", .str "C02"), ("amount", .num amt)]

/-- The `for v in vars_` search plus the `found["amount"] = ...` write (or the
append of a fresh item when no entry matches).  Mirrors the loop's
short-circuit at the first case-insensitive name match. -/
def setPlusAmount (amt : Rat) : List JVal → Option (List JVal)
  | [] => some [newPlusItem amt]
  | it :: rest =>
    match lowerNameIsPlus it with
    | some true =>
      match it with
      | .obj f => some (.obj (assocSet f "amount" (.num amt)) :: rest)
      | _ => none
    | some false =>
      match setPlusAmount amt rest with
      | some rest' => some (it :: rest')
      | none => none
    | none => none

/-- The special-cased value application for `compensation.plus_convenio_amount`:
`comp = payload.setdefault("compensation", {})`, `vars_ = comp.setdefault("variables", [])`,
locate-or-append the "Plus Convenio" item and set its amount. -/
def applyPlusConvenio (payload : JVal) (value : JVal) : Option JVal :=
  match payload with
  | .obj fs =>
    match assocSetdefault fs "compensation" (.obj []) with
    | (.obj cf, fs1) =>
      match assocSetdefault cf "variables" (.arr []) with
      | (.arr xs, cf1) =>
        match pyFloatCoerce value with
        | some amt =>
          match setPlusAmount amt xs with
          | some xs2 =>
            some (.obj (assocSet fs1 "compensation" (.obj (assocSet cf1 "variables" (.arr xs2)))))
          | none => none
        | none => none
      | (_, _) => none
    | (_, _) => none
  | _ => none

/-- One gap's value application: the special-cased path goes through
`applyPlusConvenio`, every other path through `_set_by_path` on the dotted
split. -/
def applyValue (payload : JVal) (m : MissingField) (value : JVal) : Option JVal :=
  if m.path = "compensation.plus_convenio_amount" then applyPlusConvenio payload value
  else _set_by_path payload (pySplit m.path '.') value

/-- One iteration's value acquisition for a gap `m`: under `ask`, consume one
console line (the prompt text itself is irrelevant to the document); under any
other policy the source's `else` branch substitutes `m.default`.  Returns the
value, the warnings appended, and the remaining input lines. -/
def stepValue (m : MissingField) (policy : Policy) (inputs : List String) :
    Except String (JVal × List String × List String) :=
  match policy with
  | .ask =>
    match inputs with
    | [] => .error "EOFError"
    | line :: rest =>
      let raw := pyTrim line
      if raw = "" then
        if m.default.isNull then
          .error ("Dato obligatorio no proporcionado: " ++ m.path)
        else
          .ok (m.default,
               ["Usado valor por defecto en " ++ m.path ++ ": " ++ pyStr m.default], rest)
      else
        match _parse_input raw m with
        | .ok v => .ok (v, [], rest)
        | .error e => .error e
  | _ =>
    .ok (m.default,
         ["Valor por defecto aplicado en " ++ m.path ++ ": " ++ pyStr m.default], inputs)

/-- The resolver's `for m in missing` loop.  The state is threaded explicitly:
document, accumulated warnings, remaining console input.  An `.error` carries
the document state at raise time (the caller's dict, mutated in place up to
that iteration). -/
def resolveLoopAux (payload : JVal) (missing : List MissingField) (policy : Policy)
    (inputs : List String) (warnings : List String) :
    Except (String × JVal) (JVal × List String × List String) :=
  match missing with
  | [] => .ok (payload, warnings, inputs)
  | m :: rest =>
    match stepValue m policy inputs with
    | .error e => .error (e, payload)
    | .ok (value, wadd, inputs') =>
      match applyValue payload m value with
      | some payload' => resolveLoopAux payload' rest policy inputs' (warnings ++ wadd)
      | none => .error ("TypeError", payload)

/-- The resolver `resolve_missing(payload, missing, policy)`: empty gap list → unchanged
document and no warnings; `fail` → one aggregated `ValueError` listing every
gap path; otherwise the per-gap loop.  `.error` carries the message and the
document state at raise time. -/
def resolve_missing (payload : JVal) (missing : List MissingField) (policy : Policy)
    (inputs : List String) : Except (String × JVal) (JVal × List String) :=
  if missing.isEmpty then .ok (payload, [])
  else if policy = .fail then
    .error ("Faltan datos críticos: "
      ++ String.intercalate "; " (missing.map (fun m => m.path)), payload)
  else
    match resolveLoopAux payload missing policy inputs [] with
    | .ok (d, ws, _) => .ok (d, ws)
    | .error e => .error e

/-- The predicate `valuesTruthyB missing policy inputs` checks that every value the resolver
would apply to a dotted-path gap (default or parsed input) is truthy; the
special-cased "Plus Convenio" amount is exempt (the re-detection rule for it
checks only the item's name). -/
def valuesTruthyB : List MissingField → Policy → List String → Bool
  | [], _, _ => true
  | m :: rest, p, inputs =>
    match stepValue m p inputs with
    | .ok (v, _, inputs') =>
      (m.path == "compensation.plus_convenio_amount" || truthy v)
        && valuesTruthyB rest p inputs'
    | .error _ => false

mutual
/-- Python `json.loads(json.dumps(payload))`: a deep, structurally fresh copy.  On the
JSON-representable values `JVal` models, the round-trip is value-identical. -/
def deepCopyJson : JVal → JVal
  | .null => .null
  | .bool b => .bool b
  | .num q => .num q
  | .str s => .str s
  | .obj fs => .obj (deepCopyFields fs)
  | .arr xs => .arr (deepCopyElems xs)

def deepCopyFields : JObj → JObj
  | [] => []
  | (k, v) :: rest => (k, deepCopyJson v) :: deepCopyFields rest

def deepCopyElems : List JVal → List JVal
  | [] => []
  | v :: rest => deepCopyJson v :: deepCopyElems rest
end

/-! ## Region enrichment (`enrich_region_config`) -/

/-- The static `CCAA_REGION_MAP`: region name → `{"irpf_regime": tag}`. -/
def CCAA_REGION_MAP : JObj :=
  [("Andalucía", .obj [("irpf_regime", .str "AEAT")]),
   ("Aragón", .obj [("irpf_regime", .str "AEAT")]),
   ("Principado de Asturias", .obj [("irpf_regime", .str "AEAT")]),
   ("Illes Balears", .obj [("irpf_regime", .str "AEAT")]),
   ("Canarias", .obj [("irpf_regime", .str "AEAT")]),
   ("Cantabria", .obj [("irpf_regime", .str "AEAT")]),
   ("Castilla-La Mancha", .obj [("irpf_regime", .str "AEAT")]),
   ("Castilla y León", .obj [("irpf_regime", .str "AEAT")]),
   ("Cataluña", .obj [("irpf_regime", .str "AEAT")]),
   ("Comunitat Valenciana", .obj [("irpf_regime", .str "AEAT")]),
   ("Extremadura", .obj [("irpf_regime", .str "AEAT")]),
   ("Galicia", .obj [("irpf_regime", .str "AEAT")]),
   ("Comunidad de Madrid", .obj [("irpf_regime", .str "AEAT")]),
   ("Región de Murcia", .obj [("irpf_regime", .str "AEAT")]),
   ("La Rioja", .obj [("irpf_regime", .str "AEAT")]),
   ("Comunidad Foral de Navarra", .obj [("irpf_regime", .str "FORAL_NAVARRA")]),
   ("País Vasco", .obj [("irpf_regime", .str "FORAL_PV")]),
   ("Ceuta", .obj [("irpf_regime", .str "AEAT")]),
   ("Melilla", .obj [("irpf_regime", .str "AEAT")])]

/-- The membership test `ccaa in CCAA_REGION_MAP`: strings are looked up; other hashable values
are simply not keys; dicts/lists are unhashable (Python `TypeError`). -/
def ccaaInMap : JVal → Option Bool
  | .str s => some (assocGet CCAA_REGION_MAP s).isSome
  | .obj _ => none
  | .arr _ => none
  | _ => some false

/-- The body of `enrich_region_config` acting on the (already copied) `data`
value: read `region_config.ccaa`; if falsy return `data` unchanged; otherwise
ensure `notes` and default `irpf_regime` from `CCAA_REGION_MAP`. -/
def enrichData (data : JVal) : Option JVal :=
  match data with
  | .obj fs =>
    match (assocGet fs "region_config").getD (.obj []) with
    | .obj rcf0 =>
      let ccaa := (assocGet rcf0 "ccaa").getD .null
      if !truthy ccaa then some data
      else
        match assocSetdefault fs "region_config" (.obj []) with
        | (.obj rcf, fs1) =>
          let rcf1 := (assocSetdefault rcf "notes" (.str "")).2
          if (assocGet rcf1 "irpf_regime").isSome then
            some (.obj (assocSet fs1 "region_config" (.obj rcf1)))
          else
            match ccaaInMap ccaa with
            | some true =>
              match ccaa with
              | .str cs =>
                match assocGet CCAA_REGION_MAP cs with
                | some (.obj ef) =>
                  match assocGet ef "irpf_regime" with
                  | some tag =>
                    some (.obj (assocSet fs1 "region_config"
                      (.obj (assocSet rcf1 "irpf_regime" tag))))
                  | none => none
                | _ => none
              | _ => none
            | some false => some (.obj (assocSet fs1 "region_config" (.obj rcf1)))
            | none => none
        | (_, _) => none
    | _ => none
  | _ => none

/-- The source `enrich_region_config(payload)`: the source first takes a deep copy
(`data = json.loads(json.dumps(payload))`) and then only ever touches `data`. -/
def enrich_region_config (payload : JVal) : Option JVal :=
  enrichData (deepCopyJson payload)

/-- State-passing form of `enrich_region_config` that keeps the caller's
document explicit: the first component is the caller's `payload`, which the
body never writes (every mutation targets the copy), the second is the
function's result. -/
def enrich_region_config_frame (payload : JVal) : JVal × Option JVal :=
  let data := deepCopyJson payload
  (payload, enrichData data)

/-! ## Two-level access/update views and step shapes used by the proofs -/

/-- The fields of the dict stored at `g[k]` (`[]` when `k` is absent or not a dict). -/
def childF (g : JObj) (k : String) : JObj :=
  match assocGet g k with
  | some (.obj h) => h
  | _ => []

/-- The two-level update `g[k1][k2] = v` as the resolver performs it on a
document whose `k1` entry is a dict, absent, or a replaced non-container. -/
def set2 (g : JObj) (k1 k2 : String) (v : JVal) : JObj :=
  assocSet g k1 (.obj (assocSet (childF g k1) k2 v))

/-- The two-level read `g[k1][k2]` (through `childF`). -/
def childGet (g : JObj) (a b : String) : Option JVal :=
  assocGet (childF g a) b

/-- The value the detector's truthiness tests see at `g[k1][k2]`
(`None` when absent). -/
def val2 (g : JObj) (a b : String) : JVal :=
  (childGet g a b).getD .null

/-- Whether `g[k]` is a dict or absent (the well-typedness the detector's `.get`
chains require of each probed substructure). -/
def dictOrAbsent (g : JObj) (k : String) : Prop :=
  assocGet g k = none ∨ ∃ h, assocGet g k = some (.obj h)

/-- Effect of one detector chunk (`if b then [m] else []`) on the document,
for a dotted-path gap at `k1.k2`: either nothing (rule did not fire) or a
two-level update with a truthy value. -/
def StepD (b : Bool) (g g' : JObj) (k1 k2 : String) : Prop :=
  (b = false ∧ g' = g) ∨ (b = true ∧ ∃ v, truthy v = true ∧ g' = set2 g k1 k2 v)

/-- Effect of the "Plus Convenio" chunk: either nothing or a rewrite of
`compensation.variables` to a list containing a matching item. -/
def StepP (b : Bool) (g g' : JObj) : Prop :=
  (b = false ∧ g' = g)
  ∨ (b = true ∧ ∃ xs2, anyPlusList xs2 = some true
       ∧ g' = set2 g "compensation" "variables" (.arr xs2))

/-- Common shape of both chunk effects, for the frame lemmas. -/
def StepAny (g g' : JObj) (k1 k2 : String) : Prop :=
  g' = g ∨ ∃ w, g' = set2 g k1 k2 w

/-- The payload after the detector's `company` setdefault probe. -/
def detectState1 (fs : JObj) : JObj := (assocSetdefault fs "company" (.obj [])).2

/-- The payload after both detector setdefault probes (`company`, `tables`);
this is the document the detector returns and the resolver receives. -/
def detectState2 (fs : JObj) : JObj := (assocSetdefault (detectState1 fs) "tables" (.obj [])).2

/-- Does `pat` occur at the head of `l`? (helper for substring occurrence). -/
def startsList : List Char → List Char → Bool
  | [], _ => true
  | _ :: _, [] => false
  | a :: as, b :: bs => (a = b) && startsList as bs

/-- Does `needle` occur contiguously anywhere in `hay`? -/
def occursIn (needle hay : List Char) : Bool :=
  match hay with
  | [] => needle.isEmpty
  | _ :: rest => startsList needle hay || occursIn needle rest

/-! ## Pipeline compositions and concrete witness inputs -/

/-- The detector-then-resolver pipeline under policy `default`, as invoked by
`call_gpt5_compute_payroll` (no console input is consumed by this policy). -/
def pipelineDefault (d : JVal) : Option (JVal × List String) :=
  match detect_missing d with
  | some (gaps, d1) =>
    match resolve_missing d1 gaps .default [] with
    | .ok r => some r
    | .error _ => none
  | none => none

/-- The gap paths the detector reports on the document produced by a
`default`-policy pipeline run. -/
def redetectPaths (d : JVal) : Option (List String) :=
  match pipelineDefault d with
  | some (d3, _) => (detect_missing d3).map (fun p => p.1.map (fun m => m.path))
  | none => none

/-- Concrete document for the amended-C2 witness: a period year is present. -/
def c2wDoc : JVal := .obj [("period", .obj [("year", .num 2025)])]

/-- Detector output on `c2wDoc`. -/
def c2wDetect : List MissingField × JVal := (detect_missing c2wDoc).getD ([], .null)

/-- Gaps detected on `c2wDoc`. -/
def c2wGaps : List MissingField := c2wDetect.1

/-- `c2wDoc` after the detector's setdefault probes. -/
def c2wDoc1 : JVal := c2wDetect.2

/-- Resolver output on `c2wDoc1` under `default`. -/
def c2wResolved : JVal × List String :=
  match resolve_missing c2wDoc1 c2wGaps .default [] with
  | .ok r => r
  | .error _ => (.null, [])

/-- The resolved document of the amended-C2 witness run. -/
def c2wDoc3 : JVal := c2wResolved.1

/-- The warnings of the amended-C2 witness run. -/
def c2wWs : List String := c2wResolved.2

/-- Concrete document for the C5 counterexample: `tables.cotization_year` is
present with value `0`. -/
def c5Doc : JVal := .obj [("tables", .obj [("cotization_year", .num 0)])]

/-- Enriched result for the amended-C3 witness document. -/
def c3wRes : JVal :=
  (enrich_region_config (.obj [("region_config", .obj [("ccaa", .str "Cataluña")])])).getD .null

/-- Detector output on the empty document (for the amended-C5 witness). -/
def c5wDetect : List MissingField × JVal := (detect_missing (.obj [])).getD ([], .null)

/-- Gaps detected on the empty document. -/
def c5wGaps : List MissingField := c5wDetect.1

/-- The empty document after the detector's probes. -/
def c5wD1 : JVal := c5wDetect.2

/-- Concrete fields for the C4 witness: an upper-cased "PLUS CONVENIO"
allowance and no variable-pay entries. -/
def c4wFs : JObj :=
  [("collective_agreement", .obj [("allowances", .arr [.obj [("name", .str "PLUS CONVENIO")]])])]

/-- Detector output on the C4 witness document. -/
def c4wDetect : List MissingField × JVal := (detect_missing (.obj c4wFs)).getD ([], .null)

/-- Gaps detected on the C4 witness document. -/
def c4wGaps : List MissingField := c4wDetect.1

/-- The C4 witness document after the detector's probes. -/
def c4wD1 : JVal := c4wDetect.2

/-! ## Association-list lemmas -/

theorem assocGet_assocSet_self (g : JObj) (k : String) (v : JVal) :
    assocGet (assocSet g k v) k = some v := by
  induction g with
  | nil => simp [assocGet, assocSet]
  | cons kv rest ih =>
    obtain ⟨k', w⟩ := kv
    by_cases h : k' = k
    · subst h; simp [assocGet, assocSet]
    · simp [assocGet, assocSet, h, ih]

theorem assocGet_assocSet_ne (g : JObj) {k k' : String} (v : JVal) (h : k' ≠ k) :
    assocGet (assocSet g k v) k' = assocGet g k' := by
  induction g with
  | nil => simp [assocGet, assocSet, h, Ne.symm h]
  | cons kv rest ih =>
    obtain ⟨k0, w⟩ := kv
    by_cases h0 : k0 = k
    · subst h0
      simp [assocGet, assocSet, h, Ne.symm h]
    · by_cases h1 : k0 = k'
      · subst h1; simp [assocGet, assocSet, h0]
      · simp [assocGet, assocSet, h0, h1, ih]

theorem assocGet_append_of_none (g l : JObj) {k : String}
    (h : assocGet g k = none) : assocGet (g ++ l) k = assocGet l k := by
  induction g with
  | nil => simp
  | cons kv rest ih =>
    obtain ⟨k0, w⟩ := kv
    by_cases h0 : k0 = k
    · simp [assocGet, h0] at h
    · simp [assocGet, h0] at h ⊢
      exact ih h

theorem assocGet_append_of_some (g l : JObj) {k : String} {v : JVal}
    (h : assocGet g k = some v) : assocGet (g ++ l) k = some v := by
  induction g with
  | nil => simp [assocGet] at h
  | cons kv rest ih =>
    obtain ⟨k0, w⟩ := kv
    by_cases h0 : k0 = k
    · simp [assocGet, h0] at h ⊢; exact h
    · simp [assocGet, h0] at h ⊢
      exact ih h

theorem assocSetdefault_fst (g : JObj) (k : String) (dflt : JVal) :
    (assocSetdefault g k dflt).1 = (assocGet g k).getD dflt := by
  unfold assocSetdefault
  cases h : assocGet g k <;> simp

theorem assocGet_assocSetdefault_self (g : JObj) (k : String) (dflt : JVal) :
    assocGet (assocSetdefault g k dflt).2 k = some ((assocGet g k).getD dflt) := by
  unfold assocSetdefault
  cases h : assocGet g k with
  | none => simp [assocGet_append_of_none _ _ h, assocGet]
  | some v => simp [h]

theorem assocGet_assocSetdefault_ne (g : JObj) {k k' : String} (dflt : JVal)
    (h : k' ≠ k) : assocGet (assocSetdefault g k dflt).2 k' = assocGet g k' := by
  unfold assocSetdefault
  cases hg : assocGet g k with
  | none =>
    cases hg' : assocGet g k' with
    | none => simp [assocGet_append_of_none _ _ hg', assocGet, h, Ne.symm h]
    | some v => simp [assocGet_append_of_some _ _ hg']
  | some v => simp

theorem assocSet_append_of_none (g l : JObj) {k : String} (v : JVal)
    (h : assocGet g k = none) : assocSet (g ++ l) k v = g ++ assocSet l k v := by
  induction g with
  | nil => simp
  | cons kv rest ih =>
    obtain ⟨k0, w⟩ := kv
    by_cases h0 : k0 = k
    · simp [assocGet, h0] at h
    · simp [assocGet, h0] at h
      simp [assocSet, h0, ih h]

theorem assocSet_assocSetdefault (g : JObj) (k : String) (dflt v : JVal) :
    assocSet (assocSetdefault g k dflt).2 k v = assocSet g k v := by
  unfold assocSetdefault
  cases hg : assocGet g k with
  | none =>
    have h1 : assocSet (g ++ [(k, dflt)]) k v = g ++ assocSet [(k, dflt)] k v :=
      assocSet_append_of_none g [(k, dflt)] v hg
    have h2 : assocSet g k v = g ++ [(k, v)] := by
      clear h1
      induction g with
      | nil => simp [assocSet]
      | cons kv rest ih =>
        obtain ⟨k0, w⟩ := kv
        by_cases h0 : k0 = k
        · simp [assocGet, h0] at hg
        · simp [assocGet, h0] at hg
          simp [assocSet, h0, ih hg]
    simp [h1, h2, assocSet]
  | some w => simp

mutual
theorem deepCopyJson_eq : ∀ v : JVal, deepCopyJson v = v
  | .null => rfl
  | .bool _ => rfl
  | .num _ => rfl
  | .str _ => rfl
  | .obj fs => by rw [deepCopyJson, deepCopyFields_eq fs]
  | .arr xs => by rw [deepCopyJson, deepCopyElems_eq xs]

theorem deepCopyFields_eq : ∀ g : JObj, deepCopyFields g = g
  | [] => rfl
  | (k, v) :: rest => by rw [deepCopyFields, deepCopyJson_eq v, deepCopyFields_eq rest]

theorem deepCopyElems_eq : ∀ l : List JVal, deepCopyElems l = l
  | [] => rfl
  | v :: rest => by rw [deepCopyElems, deepCopyJson_eq v, deepCopyElems_eq rest]
end

theorem assocGet_set2_self (g : JObj) (k1 k2 : String) (v : JVal) :
    assocGet (set2 g k1 k2 v) k1 = some (.obj (assocSet (childF g k1) k2 v)) := by
  unfold set2; exact assocGet_assocSet_self ..

theorem assocGet_set2_ne (g : JObj) {k k1 : String} (k2 : String) (v : JVal)
    (h : k ≠ k1) : assocGet (set2 g k1 k2 v) k = assocGet g k := by
  unfold set2; exact assocGet_assocSet_ne _ _ h

theorem childF_set2_self (g : JObj) (k1 k2 : String) (v : JVal) :
    childF (set2 g k1 k2 v) k1 = assocSet (childF g k1) k2 v := by
  simp [childF, assocGet_set2_self]

theorem childF_set2_ne (g : JObj) {k k1 : String} (k2 : String) (v : JVal)
    (h : k ≠ k1) : childF (set2 g k1 k2 v) k = childF g k := by
  unfold childF; rw [assocGet_set2_ne _ _ _ h]

theorem childGet_set2_self (g : JObj) (k1 k2 : String) (v : JVal) :
    childGet (set2 g k1 k2 v) k1 k2 = some v := by
  unfold childGet; rw [childF_set2_self]; exact assocGet_assocSet_self ..

theorem childGet_set2_ne2 (g : JObj) (k1 : String) {c k2 : String} (v : JVal)
    (h : c ≠ k2) : childGet (set2 g k1 k2 v) k1 c = childGet g k1 c := by
  unfold childGet; rw [childF_set2_self]; exact assocGet_assocSet_ne _ _ h

theorem childGet_set2_ne1 (g : JObj) {a k1 : String} (k2 c : String) (v : JVal)
    (h : a ≠ k1) : childGet (set2 g k1 k2 v) a c = childGet g a c := by
  unfold childGet; rw [childF_set2_ne _ _ _ h]

theorem dictOrAbsent_set2_self (g : JObj) (k1 k2 : String) (v : JVal) :
    dictOrAbsent (set2 g k1 k2 v) k1 :=
  Or.inr ⟨_, assocGet_set2_self ..⟩

theorem dictOrAbsent_set2_ne (g : JObj) {k k1 : String} (k2 : String) (v : JVal)
    (h : k ≠ k1) (hd : dictOrAbsent g k) : dictOrAbsent (set2 g k1 k2 v) k := by
  unfold dictOrAbsent at hd ⊢; rw [assocGet_set2_ne _ _ _ h]; exact hd

theorem getD_obj_of_dictOrAbsent {g : JObj} {k : String} (hd : dictOrAbsent g k) :
    (assocGet g k).getD (.obj []) = .obj (childF g k) := by
  rcases hd with h | ⟨hh, h⟩ <;> simp [h, childF]

theorem dictOrAbsent_of_getD_obj {g : JObj} {k : String} {h0 : JObj}
    (h : (assocGet g k).getD (.obj []) = .obj h0) :
    dictOrAbsent g k ∧ childF g k = h0 := by
  cases hg : assocGet g k with
  | none =>
    rw [hg] at h; simp at h
    exact ⟨Or.inl hg, by simp [childF, hg, ← h]⟩
  | some v =>
    rw [hg] at h; simp at h
    subst h
    exact ⟨Or.inr ⟨h0, hg⟩, by simp [childF, hg]⟩

/-! ## Inversion lemmas for the resolver value applications -/

theorem set_by_path_two_inv {g : JObj} {k1 k2 : String} {v r : JVal}
    (h : _set_by_path (.obj g) [k1, k2] v = some r) : r = .obj (set2 g k1 k2 v) := by
  simp only [_set_by_path] at h
  cases hg : assocGet g k1 with
  | none =>
    rw [hg] at h
    simp only [_set_by_path] at h
    injection h with h
    simp [← h, set2, childF, hg]
  | some c =>
    rw [hg] at h
    cases c with
    | obj hfs =>
      simp only [JVal.isDictOrList, if_pos, _set_by_path] at h
      injection h with h
      simp [← h, set2, childF, hg]
    | arr xs =>
      simp only [JVal.isDictOrList, if_pos, _set_by_path] at h
      exact Option.noConfusion h
    | null =>
      simp only [JVal.isDictOrList, if_neg, _set_by_path] at h
      injection h with h
      simp [← h, set2, childF, hg]
    | bool b =>
      simp only [JVal.isDictOrList, if_neg, _set_by_path] at h
      injection h with h
      simp [← h, set2, childF, hg]
    | num q =>
      simp only [JVal.isDictOrList, if_neg, _set_by_path] at h
      injection h with h
      simp [← h, set2, childF, hg]
    | str s =>
      simp only [JVal.isDictOrList, if_neg, _set_by_path] at h
      injection h with h
      simp [← h, set2, childF, hg]

theorem setPlusAmount_any (amt : Rat) :
    ∀ {xs xs2 : List JVal}, setPlusAmount amt xs = some xs2 → anyPlusList xs2 = some true := by
  intro xs
  induction xs with
  | nil =>
    intro xs2 h
    simp only [setPlusAmount] at h
    injection h with h
    subst h
    have hx : (pyLower "Plus Convenio" == "plus convenio") = true := by decide
    simp [anyPlusList, lowerNameIsPlus, newPlusItem, assocGet, hx]
  | cons it rest ih =>
    intro xs2 h
    simp only [setPlusAmount] at h
    cases hl : lowerNameIsPlus it with
    | none => rw [hl] at h; exact absurd h (by simp)
    | some b =>
      rw [hl] at h
      cases b with
      | true =>
        cases it with
        | obj f =>
          simp at h
          subst h
          have hname : assocGet (assocSet f "amount" (.num amt)) "name" = assocGet f "name" :=
            assocGet_assocSet_ne _ _ (by decide)
          simp only [lowerNameIsPlus] at hl ⊢
          simp only [anyPlusList, lowerNameIsPlus, hname]
          cases hn : (assocGet f "name").getD (.str "") with
          | str s => rw [hn] at hl; simp at hl; simp [hl]
          | null => rw [hn] at hl; simp at hl
          | bool b2 => rw [hn] at hl; simp at hl
          | num q2 => rw [hn] at hl; simp at hl
          | obj o2 => rw [hn] at hl; simp at hl
          | arr a2 => rw [hn] at hl; simp at hl
        | null => simp at h
        | bool b2 => simp at h
        | num q2 => simp at h
        | str s2 => simp at h
        | arr a2 => simp at h
      | false =>
        cases hr : setPlusAmount amt rest with
        | none => rw [hr] at h; exact absurd h (by simp)
        | some rest' =>
          rw [hr] at h
          simp at h
          subst h
          simp [anyPlusList, hl, ih hr]

theorem setPlusAmount_append (amt : Rat) :
    ∀ {xs : List JVal}, anyPlusList xs = some false →
      setPlusAmount amt xs = some (xs ++ [newPlusItem amt]) := by
  intro xs
  induction xs with
  | nil => intro _; simp [setPlusAmount]
  | cons it rest ih =>
    intro h
    simp only [anyPlusList] at h
    cases hl : lowerNameIsPlus it with
    | none => rw [hl] at h; simp at h
    | some b =>
      rw [hl] at h
      cases b with
      | true => simp at h
      | false => simp only [setPlusAmount, hl, ih h]; simp

theorem applyPlusConvenio_inv {g : JObj} {v r : JVal}
    (h : applyPlusConvenio (.obj g) v = some r) :
    ∃ xs2, r = .obj (set2 g "compensation" "variables" (.arr xs2))
      ∧ anyPlusList xs2 = some true := by
  simp only [applyPlusConvenio] at h
  split at h <;> try exact Option.noConfusion h
  rename_i cf fs1 hsd
  split at h <;> try exact Option.noConfusion h
  rename_i xs cf1 hsd2
  split at h <;> try exact Option.noConfusion h
  rename_i amt hco
  split at h <;> try exact Option.noConfusion h
  rename_i xs2 hsp
  injection h with h
  refine ⟨xs2, ?_, setPlusAmount_any amt hsp⟩
  have hcompV : (assocGet g "compensation").getD (.obj []) = .obj cf := by
    have h2 := assocSetdefault_fst g "compensation" (.obj [])
    rw [hsd] at h2
    simpa using h2.symm
  have hfs1 : assocSet fs1 "compensation" (.obj (assocSet cf1 "variables" (.arr xs2)))
      = assocSet g "compensation" (.obj (assocSet cf1 "variables" (.arr xs2))) := by
    have h2 := assocSet_assocSetdefault g "compensation" (.obj [])
      (.obj (assocSet cf1 "variables" (.arr xs2)))
    rw [hsd] at h2
    simpa using h2
  have hcf1 : assocSet cf1 "variables" (.arr xs2) = assocSet cf "variables" (.arr xs2) := by
    have h2 := assocSet_assocSetdefault cf "variables" (.arr []) (.arr xs2)
    rw [hsd2] at h2
    simpa using h2
  have hcf : childF g "compensation" = cf := (dictOrAbsent_of_getD_obj hcompV).2
  rw [← h, hfs1, hcf1, set2, hcf]

/-! ## Resolver-loop inversion machinery -/

theorem resolveLoopAux_cons_inv {d : JVal} {m : MissingField} {l : List MissingField}
    {p : Policy} {inp ws : List String} {R}
    (h : resolveLoopAux d (m :: l) p inp ws = .ok R) :
    ∃ v wadd inp' d', stepValue m p inp = .ok (v, wadd, inp')
      ∧ applyValue d m v = some d'
      ∧ resolveLoopAux d' l p inp' (ws ++ wadd) = .ok R := by
  simp only [resolveLoopAux] at h
  split at h <;> try exact Except.noConfusion h
  rename_i value wadd inputs' hsv
  split at h <;> try exact Except.noConfusion h
  rename_i payload' happ
  exact ⟨value, wadd, inputs', payload', hsv, happ, h⟩

theorem valuesTruthyB_cons_eq {m : MissingField} {l : List MissingField} {p : Policy}
    {inp : List String} {v : JVal} {wadd inp' : List String}
    (hsv : stepValue m p inp = .ok (v, wadd, inp')) :
    valuesTruthyB (m :: l) p inp
      = ((m.path == "compensation.plus_convenio_amount" || truthy v)
          && valuesTruthyB l p inp') := by
  simp only [valuesTruthyB, hsv]

theorem stepD_toAny {b : Bool} {g g' : JObj} {k1 k2 : String}
    (h : StepD b g g' k1 k2) : StepAny g g' k1 k2 := by
  rcases h with ⟨_, h⟩ | ⟨_, v, _, h⟩
  · exact Or.inl h
  · exact Or.inr ⟨v, h⟩

theorem stepP_toAny {b : Bool} {g g' : JObj}
    (h : StepP b g g') : StepAny g g' "compensation" "variables" := by
  rcases h with ⟨_, h⟩ | ⟨_, xs2, _, h⟩
  · exact Or.inl h
  · exact Or.inr ⟨.arr xs2, h⟩

theorem StepAny.get_ne {g g' : JObj} {k1 k2 : String} (h : StepAny g g' k1 k2)
    {k : String} (hk : k ≠ k1) : assocGet g' k = assocGet g k := by
  rcases h with h | ⟨w, h⟩
  · rw [h]
  · rw [h, assocGet_set2_ne _ _ _ hk]

theorem StepAny.childGet_ne1 {g g' : JObj} {k1 k2 : String} (h : StepAny g g' k1 k2)
    {a : String} (c : String) (ha : a ≠ k1) : childGet g' a c = childGet g a c := by
  rcases h with h | ⟨w, h⟩
  · rw [h]
  · rw [h, childGet_set2_ne1 _ _ _ _ ha]

theorem StepAny.childGet_ne2 {g g' : JObj} {k1 k2 : String} (h : StepAny g g' k1 k2)
    {c : String} (hc : c ≠ k2) : childGet g' k1 c = childGet g k1 c := by
  rcases h with h | ⟨w, h⟩
  · rw [h]
  · rw [h, childGet_set2_ne2 _ _ _ hc]

theorem StepAny.objPres {g g' : JObj} {k1 k2 : String} (h : StepAny g g' k1 k2)
    {k : String} (hp : ∃ hh, assocGet g k = some (.obj hh)) :
    ∃ hh, assocGet g' k = some (.obj hh) := by
  rcases h with h | ⟨w, h⟩
  · rw [h]; exact hp
  · by_cases hk : k = k1
    · subst hk; exact ⟨_, h ▸ assocGet_set2_self ..⟩
    · rw [h, assocGet_set2_ne _ _ _ hk]; exact hp

theorem StepAny.doa {g g' : JObj} {k1 k2 : String} (h : StepAny g g' k1 k2)
    {k : String} (hd : dictOrAbsent g k) : dictOrAbsent g' k := by
  rcases h with h | ⟨w, h⟩
  · rw [h]; exact hd
  · by_cases hk : k = k1
    · subst hk; exact h ▸ dictOrAbsent_set2_self ..
    · exact h ▸ dictOrAbsent_set2_ne _ _ _ hk hd

theorem resolve_chunk_dotted_inv {b : Bool} {m : MissingField} {k1 k2 : String}
    (hsplit : pySplit m.path '.' = [k1, k2])
    (hnp : m.path ≠ "compensation.plus_convenio_amount")
    {g : JObj} {l2 : List MissingField} {p : Policy} {inp ws : List String} {R}
    (h : resolveLoopAux (.obj g) ((if b then [m] else []) ++ l2) p inp ws = .ok R)
    (hv : valuesTruthyB ((if b then [m] else []) ++ l2) p inp = true) :
    ∃ g' inp' ws', StepD b g g' k1 k2
      ∧ resolveLoopAux (.obj g') l2 p inp' ws' = .ok R
      ∧ valuesTruthyB l2 p inp' = true := by
  cases b with
  | false => exact ⟨g, inp, ws, Or.inl ⟨rfl, rfl⟩, h, hv⟩
  | true =>
    simp only [if_pos, List.cons_append] at h hv
    obtain ⟨v, wadd, inp1, d1, hsv, happ, h2⟩ := resolveLoopAux_cons_inv h
    rw [valuesTruthyB_cons_eq hsv] at hv
    obtain ⟨hv1, hv2⟩ := (Bool.and_eq_true _ _).mp hv
    have hd1 : d1 = .obj (set2 g k1 k2 v) := by
      unfold applyValue at happ
      rw [if_neg hnp, hsplit] at happ
      exact set_by_path_two_inv happ
    have hvtr : truthy v = true := by
      have hne : (m.path == "compensation.plus_convenio_amount") = false := by
        simp [hnp]
      rw [hne] at hv1
      simpa using hv1
    exact ⟨set2 g k1 k2 v, inp1, ws ++ wadd,
      Or.inr ⟨rfl, v, hvtr, rfl⟩, hd1 ▸ h2, hv2⟩

theorem resolve_chunk_plus_inv {b : Bool}
    {g : JObj} {l2 : List MissingField} {p : Policy} {inp ws : List String} {R}
    (h : resolveLoopAux (.obj g) ((if b then [plusConvenioGap] else []) ++ l2) p inp ws = .ok R)
    (hv : valuesTruthyB ((if b then [plusConvenioGap] else []) ++ l2) p inp = true) :
    ∃ g' inp' ws', StepP b g g'
      ∧ resolveLoopAux (.obj g') l2 p inp' ws' = .ok R
      ∧ valuesTruthyB l2 p inp' = true := by
  cases b with
  | false => exact ⟨g, inp, ws, Or.inl ⟨rfl, rfl⟩, h, hv⟩
  | true =>
    simp only [if_pos, List.cons_append] at h hv
    obtain ⟨v, wadd, inp1, d1, hsv, happ, h2⟩ := resolveLoopAux_cons_inv h
    rw [valuesTruthyB_cons_eq hsv] at hv
    obtain ⟨hv1, hv2⟩ := (Bool.and_eq_true _ _).mp hv
    have happ' : applyPlusConvenio (.obj g) v = some d1 := by
      unfold applyValue at happ
      have hppath : plusConvenioGap.path = "compensation.plus_convenio_amount" := rfl
      rw [if_pos hppath] at happ
      exact happ
    obtain ⟨xs2, hd1, hany⟩ := applyPlusConvenio_inv happ'
    exact ⟨set2 g "compensation" "variables" (.arr xs2), inp1, ws ++ wadd,
      Or.inr ⟨rfl, xs2, hany, rfl⟩, hd1 ▸ h2, hv2⟩

/-! ## Detector characterisation -/

theorem hasPlusInAllowances_congr {g g' : JObj}
    (h : assocGet g' "collective_agreement" = assocGet g "collective_agreement") :
    hasPlusInAllowances g' = hasPlusInAllowances g := by
  unfold hasPlusInAllowances; rw [h]

theorem hasPlusInComp_of_doa {g : JObj} (hd : dictOrAbsent g "compensation") :
    hasPlusInComp g
      = anyPlusName ((childGet g "compensation" "variables").getD (.arr [])) := by
  rcases hd with hnone | ⟨hh, hsome⟩
  · unfold hasPlusInComp childGet childF
    rw [hnone]
    simp [assocGet]
  · unfold hasPlusInComp childGet childF
    rw [hsome]
    simp

theorem detect_missing_inv {p : JVal} {gaps : List MissingField} {d1 : JVal}
    (h : detect_missing p = some (gaps, d1)) :
    ∃ fs hpa hpc cof pef tbf cmf wkf rcf,
      p = .obj fs ∧ d1 = .obj (detectState2 fs)
      ∧ hasPlusInAllowances fs = some hpa ∧ hasPlusInComp fs = some hpc
      ∧ (assocGet fs "company").getD (.obj []) = .obj cof
      ∧ (assocGet (detectState1 fs) "period").getD (.obj []) = .obj pef
      ∧ (assocGet (detectState1 fs) "tables").getD (.obj []) = .obj tbf
      ∧ (assocGet (detectState2 fs) "compensation").getD (.obj []) = .obj cmf
      ∧ (assocGet (detectState2 fs) "worker").getD (.obj []) = .obj wkf
      ∧ (assocGet (detectState2 fs) "region_config").getD (.obj []) = .obj rcf
      ∧ gaps = detectGaps hpa hpc cof ((assocGet pef "year").getD .null) tbf cmf wkf rcf := by
  cases p with
  | obj fs =>
    simp only [detect_missing] at h
    split at h <;> try exact Option.noConfusion h
    rename_i hpa hpc hhpa hhpc
    split at h <;> try exact Option.noConfusion h
    rename_i cof fs1 hsdc
    split at h <;> try exact Option.noConfusion h
    rename_i pef hpef
    split at h <;> try exact Option.noConfusion h
    rename_i tbf fs2 hsdt
    split at h <;> try exact Option.noConfusion h
    rename_i cmf wkf rcf hcmf hwkf hrcf
    injection h with h
    have hgaps : detectGaps hpa hpc cof ((assocGet pef "year").getD .null) tbf cmf wkf rcf
        = gaps := congrArg Prod.fst h
    have hd1 : JVal.obj fs2 = d1 := congrArg Prod.snd h
    have hfs1 : fs1 = detectState1 fs := by
      have h2 := congrArg Prod.snd hsdc
      simpa [detectState1] using h2.symm
    have hcof : (assocGet fs "company").getD (.obj []) = .obj cof := by
      have h2 := assocSetdefault_fst fs "company" (.obj [])
      rw [hsdc] at h2
      simpa using h2.symm
    have hfs2 : fs2 = detectState2 fs := by
      have h2 := congrArg Prod.snd hsdt
      rw [hfs1] at h2
      simpa [detectState2] using h2.symm
    have htbf : (assocGet (detectState1 fs) "tables").getD (.obj []) = .obj tbf := by
      have h2 := assocSetdefault_fst fs1 "tables" (.obj [])
      rw [hsdt] at h2
      rw [hfs1] at h2
      simpa using h2.symm
    refine ⟨fs, hpa, hpc, cof, pef, tbf, cmf, wkf, rcf, rfl, ?_, hhpa, hhpc, hcof,
      hfs1 ▸ hpef, htbf, hfs2 ▸ hcmf, hfs2 ▸ hwkf, hfs2 ▸ hrcf, hgaps.symm⟩
    rw [← hd1, hfs2]
  | null => exact Option.noConfusion h
  | bool b => exact Option.noConfusion h
  | num q => exact Option.noConfusion h
  | str s => exact Option.noConfusion h
  | arr xs => exact Option.noConfusion h

theorem detect_missing_eval {g : JObj} {hpa hpc : Bool} {cof pef tbf cmf wkf rcf : JObj}
    (h1 : hasPlusInAllowances g = some hpa) (h2 : hasPlusInComp g = some hpc)
    (h3 : assocGet g "company" = some (.obj cof))
    (h4 : (assocGet g "period").getD (.obj []) = .obj pef)
    (h5 : assocGet g "tables" = some (.obj tbf))
    (h6 : (assocGet g "compensation").getD (.obj []) = .obj cmf)
    (h7 : (assocGet g "worker").getD (.obj []) = .obj wkf)
    (h8 : (assocGet g "region_config").getD (.obj []) = .obj rcf) :
    detect_missing (.obj g) = some
      (detectGaps hpa hpc cof ((assocGet pef "year").getD .null) tbf cmf wkf rcf, .obj g) := by
  have sdc : assocSetdefault g "company" (.obj []) = (.obj cof, g) := by
    unfold assocSetdefault; rw [h3]
  have sdt : assocSetdefault g "tables" (.obj []) = (.obj tbf, g) := by
    unfold assocSetdefault; rw [h5]
  simp only [detect_missing, h1, h2, sdc, h4, sdt, h6, h7, h8]

theorem hasPlusInComp_congr {g g' : JObj}
    (h : assocGet g' "compensation" = assocGet g "compensation") :
    hasPlusInComp g' = hasPlusInComp g := by
  unfold hasPlusInComp; rw [h]

theorem childF_of_get {g : JObj} {k : String} {h0 : JObj}
    (hg : assocGet g k = some (.obj h0)) : childF g k = h0 := by
  unfold childF; rw [hg]

theorem resolve_missing_ok_loop {payload : JVal} {missing : List MissingField}
    {policy : Policy} {inputs : List String} {d3 : JVal} {ws : List String}
    (h : resolve_missing payload missing policy inputs = .ok (d3, ws)) :
    ∃ rem, resolveLoopAux payload missing policy inputs [] = .ok (d3, ws, rem) := by
  unfold resolve_missing at h
  by_cases hem : missing.isEmpty = true
  · rw [if_pos hem] at h
    injection h with h
    have h1 : payload = d3 := congrArg Prod.fst h
    have h2 : ([] : List String) = ws := congrArg Prod.snd h
    have hnil : missing = [] := by
      cases missing with
      | nil => rfl
      | cons a l => simp [List.isEmpty] at hem
    subst hnil
    exact ⟨inputs, by rw [resolveLoopAux, ← h1, ← h2]⟩
  · rw [if_neg hem] at h
    by_cases hpol : policy = .fail
    · rw [if_pos hpol] at h
      exact Except.noConfusion h
    · rw [if_neg hpol] at h
      cases hL : resolveLoopAux payload missing policy inputs [] with
      | ok t =>
        rw [hL] at h
        obtain ⟨dd, wws, rem⟩ := t
        injection h with h
        refine ⟨rem, ?_⟩
        rw [show dd = d3 from congrArg Prod.fst h,
            show wws = ws from congrArg Prod.snd h]
      | error e =>
        rw [hL] at h
        exact Except.noConfusion h

theorem cotizationYearGap_path (py : JVal) :
    (cotizationYearGap py).path = "tables.cotization_year" := rfl

theorem irpfYearGap_path (py : JVal) :
    (irpfYearGap py).path = "tables.irpf_year" := rfl

/-- C2 (amended): after detection and a successful resolution under `default`
or `ask` (any non-`fail` policy reaching the loop), re-running the detector on
the resolved document yields an empty gap list and leaves the document
unchanged — provided every value the resolver applied to a dotted-path gap was
truthy (`valuesTruthyB`).  The original claim, without the truthiness proviso,
is refuted by the counterexample theorem: a falsy substituted default (e.g. an
absent `period.year` propagated into `tables.cotization_year`) is re-detected. -/
theorem detect_after_resolve_complete
    (d : JVal) (gaps : List MissingField) (d1 d3 : JVal) (ws : List String)
    (policy : Policy) (inputs : List String)
    (hdet : detect_missing d = some (gaps, d1))
    (hres : resolve_missing d1 gaps policy inputs = .ok (d3, ws))
    (htr : valuesTruthyB gaps policy inputs = true) :
    detect_missing d3 = some ([], d3) := by
  obtain ⟨fs, hpa, hpc, cof, pef, tbf, cmf, wkf, rcf, hpfs, hd1, hhpa, hhpc, hcof,
    hpef, htbf, hcmf, hwkf, hrcf, hgaps⟩ := detect_missing_inv hdet
  subst hpfs
  subst hd1
  subst hgaps
  obtain ⟨rem, hloop⟩ := resolve_missing_ok_loop hres
  have f0co : assocGet (detectState2 fs) "company" = some (.obj cof) := by
    rw [detectState2, assocGet_assocSetdefault_ne _ _ (by decide : "company" ≠ "tables")]
    rw [detectState1, assocGet_assocSetdefault_self, hcof]
  have f0tb : assocGet (detectState2 fs) "tables" = some (.obj tbf) := by
    rw [detectState2, assocGet_assocSetdefault_self, htbf]
  have f0pe : (assocGet (detectState2 fs) "period").getD (.obj []) = .obj pef := by
    rw [detectState2, assocGet_assocSetdefault_ne _ _ (by decide : "period" ≠ "tables")]
    exact hpef
  have f0ca : assocGet (detectState2 fs) "collective_agreement"
      = assocGet fs "collective_agreement" := by
    rw [detectState2, assocGet_assocSetdefault_ne _ _ (by decide)]
    rw [detectState1, assocGet_assocSetdefault_ne _ _ (by decide)]
  have f0cm : assocGet (detectState2 fs) "compensation" = assocGet fs "compensation" := by
    rw [detectState2, assocGet_assocSetdefault_ne _ _ (by decide)]
    rw [detectState1, assocGet_assocSetdefault_ne _ _ (by decide)]
  have doa0cm : dictOrAbsent (detectState2 fs) "compensation" :=
    (dictOrAbsent_of_getD_obj hcmf).1
  have hcmfF : childF (detectState2 fs) "compensation" = cmf :=
    (dictOrAbsent_of_getD_obj hcmf).2
  have doa0wk : dictOrAbsent (detectState2 fs) "worker" :=
    (dictOrAbsent_of_getD_obj hwkf).1
  have hwkfF : childF (detectState2 fs) "worker" = wkf :=
    (dictOrAbsent_of_getD_obj hwkf).2
  have doa0rc : dictOrAbsent (detectState2 fs) "region_config" :=
    (dictOrAbsent_of_getD_obj hrcf).1
  have hrcfF : childF (detectState2 fs) "region_config" = rcf :=
    (dictOrAbsent_of_getD_obj hrcf).2
  simp only [detectGaps] at hloop htr
  simp only [List.append_assoc] at hloop htr
  obtain ⟨g1, inp1, ws1, S1, hloop, htr⟩ := resolve_chunk_plus_inv hloop htr
  obtain ⟨g2, inp2, ws2, S2, hloop, htr⟩ := resolve_chunk_dotted_inv
    (show pySplit atepTariffGap.path '.' = ["company", "atep_tariff_pct"] from rfl)
    (by decide) hloop htr
  obtain ⟨g3, inp3, ws3, S3, hloop, htr⟩ := resolve_chunk_dotted_inv
    (show pySplit (cotizationYearGap ((assocGet pef "year").getD .null)).path '.'
      = ["tables", "cotization_year"] from rfl)
    (by rw [cotizationYearGap_path]; decide) hloop htr
  obtain ⟨g4, inp4, ws4, S4, hloop, htr⟩ := resolve_chunk_dotted_inv
    (show pySplit (irpfYearGap ((assocGet pef "year").getD .null)).path '.'
      = ["tables", "irpf_year"] from rfl)
    (by rw [irpfYearGap_path]; decide) hloop htr
  obtain ⟨g5, inp5, ws5, S5, hloop, htr⟩ := resolve_chunk_dotted_inv
    (show pySplit craCodeGap.path '.' = ["compensation", "base_salary_cra_code"] from rfl)
    (by decide) hloop htr
  obtain ⟨g6, inp6, ws6, S6, hloop, htr⟩ := resolve_chunk_dotted_inv
    (show pySplit nifGap.path '.' = ["worker", "nif"] from rfl)
    (by decide) hloop htr
  rw [show (if !truthy ((assocGet rcf "irpf_regime").getD .null)
        then [irpfRegimeGap] else [])
      = (if !truthy ((assocGet rcf "irpf_regime").getD .null)
        then [irpfRegimeGap] else []) ++ [] from (List.append_nil _).symm] at hloop htr
  obtain ⟨g7, inp7, ws7, S7, hloop, htr⟩ := resolve_chunk_dotted_inv
    (show pySplit irpfRegimeGap.path '.' = ["region_config", "irpf_regime"] from rfl)
    (by decide) hloop htr
  have hd3 : d3 = .obj g7 := by
    rw [resolveLoopAux] at hloop
    injection hloop with hloop
    exact (congrArg Prod.fst hloop).symm
  subst hd3
  have A1 := stepP_toAny S1
  have A2 := stepD_toAny S2
  have A3 := stepD_toAny S3
  have A4 := stepD_toAny S4
  have A5 := stepD_toAny S5
  have A6 := stepD_toAny S6
  have A7 := stepD_toAny S7
  have tca : assocGet g7 "collective_agreement" = assocGet fs "collective_agreement" := by
    rw [A7.get_ne (by decide), A6.get_ne (by decide), A5.get_ne (by decide),
        A4.get_ne (by decide), A3.get_ne (by decide), A2.get_ne (by decide),
        A1.get_ne (by decide), f0ca]
  have E1 : hasPlusInAllowances g7 = some hpa := by
    rw [hasPlusInAllowances_congr tca]
    exact hhpa
  have E4 : (assocGet g7 "period").getD (.obj []) = .obj pef := by
    rw [A7.get_ne (by decide), A6.get_ne (by decide), A5.get_ne (by decide),
        A4.get_ne (by decide), A3.get_ne (by decide), A2.get_ne (by decide),
        A1.get_ne (by decide)]
    exact f0pe
  have doa7cm : dictOrAbsent g7 "compensation" :=
    A7.doa (A6.doa (A5.doa (A4.doa (A3.doa (A2.doa (A1.doa doa0cm))))))
  have hcm7 : (assocGet g7 "compensation").getD (.obj []) = .obj (childF g7 "compensation") :=
    getD_obj_of_dictOrAbsent doa7cm
  have doa7wk : dictOrAbsent g7 "worker" :=
    A7.doa (A6.doa (A5.doa (A4.doa (A3.doa (A2.doa (A1.doa doa0wk))))))
  have hwk7 : (assocGet g7 "worker").getD (.obj []) = .obj (childF g7 "worker") :=
    getD_obj_of_dictOrAbsent doa7wk
  have doa7rc : dictOrAbsent g7 "region_config" :=
    A7.doa (A6.doa (A5.doa (A4.doa (A3.doa (A2.doa (A1.doa doa0rc))))))
  have hrc7 : (assocGet g7 "region_config").getD (.obj []) = .obj (childF g7 "region_config") :=
    getD_obj_of_dictOrAbsent doa7rc
  obtain ⟨cof7, hco7⟩ : ∃ hh, assocGet g7 "company" = some (.obj hh) :=
    A7.objPres (A6.objPres (A5.objPres (A4.objPres (A3.objPres (A2.objPres
      (A1.objPres ⟨cof, f0co⟩))))))
  obtain ⟨tbf7, htb7⟩ : ∃ hh, assocGet g7 "tables" = some (.obj hh) :=
    A7.objPres (A6.objPres (A5.objPres (A4.objPres (A3.objPres (A2.objPres
      (A1.objPres ⟨tbf, f0tb⟩))))))
  have hcg : ∀ c, assocGet cof7 c = childGet g7 "company" c := by
    intro c; unfold childGet; rw [childF_of_get hco7]
  have hcgT : ∀ c, assocGet tbf7 c = childGet g7 "tables" c := by
    intro c; unfold childGet; rw [childF_of_get htb7]
  have cond2 : (!truthy ((assocGet cof7 "cnae").getD .null)
      && !truthy ((assocGet cof7 "atep_tariff_pct").getD .null)) = false := by
    have frame67 : ∀ c, childGet g7 "company" c = childGet g2 "company" c := by
      intro c
      rw [A7.childGet_ne1 _ (by decide), A6.childGet_ne1 _ (by decide),
          A5.childGet_ne1 _ (by decide), A4.childGet_ne1 _ (by decide),
          A3.childGet_ne1 _ (by decide)]
    rcases S2 with ⟨hb2, hg2⟩ | ⟨hb2, v2, hv2, hg2⟩
    · have frame10 : ∀ c, childGet g2 "company" c = assocGet cof c := by
        intro c
        rw [hg2, A1.childGet_ne1 _ (by decide)]
        unfold childGet
        rw [childF_of_get f0co]
      rw [hcg "cnae", hcg "atep_tariff_pct", frame67 "cnae", frame67 "atep_tariff_pct",
          frame10 "cnae", frame10 "atep_tariff_pct"]
      exact hb2
    · have hval : childGet g7 "company" "atep_tariff_pct" = some v2 := by
        rw [frame67 "atep_tariff_pct", hg2, childGet_set2_self]
      rw [hcg "cnae", hcg "atep_tariff_pct", hval]
      simp [hv2]
  have cond3 : (!truthy ((assocGet tbf7 "cotization_year").getD .null)) = false := by
    have frame47 : childGet g7 "tables" "cotization_year"
        = childGet g3 "tables" "cotization_year" := by
      rw [A7.childGet_ne1 _ (by decide), A6.childGet_ne1 _ (by decide),
          A5.childGet_ne1 _ (by decide), A4.childGet_ne2 (by decide)]
    rcases S3 with ⟨hb3, hg3⟩ | ⟨hb3, v3, hv3, hg3⟩
    · have frame20 : childGet g3 "tables" "cotization_year"
          = assocGet tbf "cotization_year" := by
        rw [hg3, A2.childGet_ne1 _ (by decide), A1.childGet_ne1 _ (by decide)]
        unfold childGet
        rw [childF_of_get f0tb]
      rw [hcgT "cotization_year", frame47, frame20]
      exact hb3
    · have hval : childGet g7 "tables" "cotization_year" = some v3 := by
        rw [frame47, hg3, childGet_set2_self]
      rw [hcgT "cotization_year", hval]
      simp [hv3]
  have cond4 : (!truthy ((assocGet tbf7 "irpf_year").getD .null)) = false := by
    have frame57 : childGet g7 "tables" "irpf_year" = childGet g4 "tables" "irpf_year" := by
      rw [A7.childGet_ne1 _ (by decide), A6.childGet_ne1 _ (by decide),
          A5.childGet_ne1 _ (by decide)]
    rcases S4 with ⟨hb4, hg4⟩ | ⟨hb4, v4, hv4, hg4⟩
    · have frame30 : childGet g4 "tables" "irpf_year" = assocGet tbf "irpf_year" := by
        rw [hg4, A3.childGet_ne2 (by decide), A2.childGet_ne1 _ (by decide),
            A1.childGet_ne1 _ (by decide)]
        unfold childGet
        rw [childF_of_get f0tb]
      rw [hcgT "irpf_year", frame57, frame30]
      exact hb4
    · have hval : childGet g7 "tables" "irpf_year" = some v4 := by
        rw [frame57, hg4, childGet_set2_self]
      rw [hcgT "irpf_year", hval]
      simp [hv4]
  have cond5 : (!truthy ((childGet g7 "compensation" "base_salary_cra_code").getD .null))
      = false := by
    have frame67 : childGet g7 "compensation" "base_salary_cra_code"
        = childGet g5 "compensation" "base_salary_cra_code" := by
      rw [A7.childGet_ne1 _ (by decide), A6.childGet_ne1 _ (by decide)]
    rcases S5 with ⟨hb5, hg5⟩ | ⟨hb5, v5, hv5, hg5⟩
    · have frame40 : childGet g5 "compensation" "base_salary_cra_code"
          = assocGet cmf "base_salary_cra_code" := by
        rw [hg5, A4.childGet_ne1 _ (by decide), A3.childGet_ne1 _ (by decide),
            A2.childGet_ne1 _ (by decide), A1.childGet_ne2 (by decide)]
        unfold childGet
        rw [hcmfF]
      rw [frame67, frame40]
      exact hb5
    · have hval : childGet g7 "compensation" "base_salary_cra_code" = some v5 := by
        rw [frame67, hg5, childGet_set2_self]
      rw [hval]
      simp [hv5]
  have cond6 : (!truthy ((childGet g7 "worker" "nif").getD .null)) = false := by
    have frame77 : childGet g7 "worker" "nif" = childGet g6 "worker" "nif" := by
      rw [A7.childGet_ne1 _ (by decide)]
    rcases S6 with ⟨hb6, hg6⟩ | ⟨hb6, v6, hv6, hg6⟩
    · have frame50 : childGet g6 "worker" "nif" = assocGet wkf "nif" := by
        rw [hg6, A5.childGet_ne1 _ (by decide), A4.childGet_ne1 _ (by decide),
            A3.childGet_ne1 _ (by decide), A2.childGet_ne1 _ (by decide),
            A1.childGet_ne1 _ (by decide)]
        unfold childGet
        rw [hwkfF]
      rw [frame77, frame50]
      exact hb6
    · have hval : childGet g7 "worker" "nif" = some v6 := by
        rw [frame77, hg6, childGet_set2_self]
      rw [hval]
      simp [hv6]
  have cond7 : (!truthy ((childGet g7 "region_config" "irpf_regime").getD .null)) = false := by
    rcases S7 with ⟨hb7, hg7⟩ | ⟨hb7, v7, hv7, hg7⟩
    · have frame60 : childGet g7 "region_config" "irpf_regime"
          = assocGet rcf "irpf_regime" := by
        rw [hg7, A6.childGet_ne1 _ (by decide), A5.childGet_ne1 _ (by decide),
            A4.childGet_ne1 _ (by decide), A3.childGet_ne1 _ (by decide),
            A2.childGet_ne1 _ (by decide), A1.childGet_ne1 _ (by decide)]
        unfold childGet
        rw [hrcfF]
      rw [frame60]
      exact hb7
    · have hval : childGet g7 "region_config" "irpf_regime" = some v7 := by
        rw [hg7, childGet_set2_self]
      rw [hval]
      simp [hv7]
  have E2 : ∃ c7, hasPlusInComp g7 = some c7 ∧ (hpa && !c7) = false := by
    have hform : hasPlusInComp g7
        = anyPlusName ((childGet g7 "compensation" "variables").getD (.arr [])) :=
      hasPlusInComp_of_doa doa7cm
    have frame27 : childGet g7 "compensation" "variables"
        = childGet g1 "compensation" "variables" := by
      rw [A7.childGet_ne1 _ (by decide), A6.childGet_ne1 _ (by decide),
          A5.childGet_ne2 (by decide), A4.childGet_ne1 _ (by decide),
          A3.childGet_ne1 _ (by decide), A2.childGet_ne1 _ (by decide)]
    rcases S1 with ⟨hb1, hg1⟩ | ⟨hb1, xs2, hany, hg1⟩
    · have h0 : childGet g1 "compensation" "variables" = assocGet cmf "variables" := by
        rw [hg1]
        unfold childGet
        rw [hcmfF]
      have hfs : hasPlusInComp fs
          = anyPlusName ((assocGet cmf "variables").getD (.arr [])) := by
        have hcongr : hasPlusInComp (detectState2 fs) = hasPlusInComp fs :=
          hasPlusInComp_congr f0cm
        rw [← hcongr, hasPlusInComp_of_doa doa0cm]
        unfold childGet
        rw [hcmfF]
      refine ⟨hpc, ?_, hb1⟩
      rw [hform, frame27, h0, ← hfs]
      exact hhpc
    · refine ⟨true, ?_, by simp⟩
      rw [hform, frame27, hg1, childGet_set2_self]
      simp only [Option.getD_some, anyPlusName]
      exact hany
  obtain ⟨hpc7, E2a, E2b⟩ := E2
  have heval := detect_missing_eval E1 E2a hco7 E4 htb7 hcm7 hwk7 hrc7
  rw [heval]
  have hempty : detectGaps hpa hpc7 cof7 ((assocGet pef "year").getD .null) tbf7
      (childF g7 "compensation") (childF g7 "worker") (childF g7 "region_config") = [] := by
    have cond5' : (!truthy ((assocGet (childF g7 "compensation")
        "base_salary_cra_code").getD .null)) = false := cond5
    have cond6' : (!truthy ((assocGet (childF g7 "worker") "nif").getD .null)) = false := cond6
    have cond7' : (!truthy ((assocGet (childF g7 "region_config")
        "irpf_regime").getD .null)) = false := cond7
    simp [detectGaps, E2b, cond2, cond3, cond4, cond5', cond6', cond7']
  rw [hempty]

/-! ## Claim theorems -/

/-- C1: with policy `fail` and a non-empty gap list, `resolve_missing` raises a
single `ValueError` whose message is the fixed prefix followed by every gap's
path joined with `"; "` — so each gap path is identified — and the document
carried by the error is the caller's document unchanged: the error is raised
before the resolution loop, so no gap is resolved and no mutation occurs. -/
theorem resolve_missing_fail_policy
    (payload : JVal) (missing : List MissingField) (inputs : List String)
    (hne : missing.isEmpty = false) :
    resolve_missing payload missing .fail inputs
      = .error ("Faltan datos críticos: "
          ++ String.intercalate "; " (missing.map (fun m => m.path)), payload)
      ∧ ∀ m ∈ missing, m.path ∈ missing.map (fun m => m.path) := by
  constructor
  · unfold resolve_missing
    rw [if_neg (by simp [hne]), if_pos rfl]
  · intro m hm
    exact List.mem_map_of_mem _ hm

/-- Witness for C1 at a concrete document and gap list. -/
theorem resolve_missing_fail_policy_witness :
    resolve_missing (.obj []) [nifGap] .fail []
      = .error ("Faltan datos críticos: "
          ++ String.intercalate "; " ([nifGap].map (fun m => m.path)), .obj [])
      ∧ ∀ m ∈ [nifGap], m.path ∈ [nifGap].map (fun m => m.path) :=
  resolve_missing_fail_policy (.obj []) [nifGap] [] rfl

/-- C2 counterexample: on the empty document (no `period.year`), `default`
resolution substitutes the absent period year (`None`) into both table-year
fields, and the re-run detector still reports those two gaps — refuting the
claim as stated. -/
theorem detect_after_resolve_complete_counterexample :
    redetectPaths (.obj []) = some ["tables.cotization_year", "tables.irpf_year"] := rfl

/-- Witness for the amended C2 at a concrete document with a truthy
`period.year`: every hypothesis evaluates by `rfl`. -/
theorem detect_after_resolve_complete_witness :
    detect_missing c2wDoc3 = some ([], c2wDoc3) :=
  detect_after_resolve_complete c2wDoc c2wGaps c2wDoc1 c2wDoc3 c2wWs .default [] rfl rfl rfl

/-- C6: determinism of the `default`-policy pipeline — on structurally
identical inputs the detector followed by the resolver yields structurally
identical documents and identical warning lists in the same order (the
embedding is a pure function of the document; `default` reads no console or
other ambient state). -/
theorem pipeline_default_deterministic (d1 d2 : JVal) (h : d1 = d2) :
    pipelineDefault d1 = pipelineDefault d2 := by rw [h]

/-- Witness for C6 at a concrete document. -/
theorem pipeline_default_deterministic_witness :
    pipelineDefault (.obj []) = pipelineDefault (.obj []) :=
  pipeline_default_deterministic (.obj []) (.obj []) rfl

/-- C8: region enrichment never mutates the caller's document.  In the
state-passing embedding of `enrich_region_config` the caller's component is
returned unchanged, the result is computed solely from the deep copy taken on
entry, and the copy is value-identical to (while structurally fresh from) the
argument.  Object identity itself has no further observable content in a value
semantics. -/
theorem enrich_no_mutation (d : JVal) :
    (enrich_region_config_frame d).1 = d
    ∧ (enrich_region_config_frame d).2 = enrich_region_config d
    ∧ deepCopyJson d = d :=
  ⟨rfl, rfl, deepCopyJson_eq d⟩

/-- C10: the generic nested assignment `_set_by_path` is not total: an
intermediate segment holding a list is kept (only intermediates that are
neither dicts nor lists are replaced by `{}`), the walk descends into the
list, and the final assignment with a string key raises `TypeError` (modelled
as `none`); by contrast a non-container intermediate is replaced by `{}` and
the assignment succeeds. -/
theorem set_by_path_list_intermediate :
    _set_by_path (.obj [("tables", .arr [])]) ["tables", "cotization_year"] (.num 2025) = none
    ∧ _set_by_path (.obj [("tables", .num 5)]) ["tables", "cotization_year"] (.num 2025)
        = some (.obj [("tables", .obj [("cotization_year", .num 2025)])]) :=
  ⟨rfl, rfl⟩

/-- C5 counterexample: the document has `tables.cotization_year` present
(value `0`), yet the detector reports a gap at exactly that path — so the
detector does flag fields whose values are already present (when falsy),
refuting the claim as stated. -/
theorem detect_reports_present_field :
    (detect_missing c5Doc).map (fun p => p.1.map (fun m => m.path))
      = some ["company.atep_tariff_pct", "tables.cotization_year", "tables.irpf_year",
              "compensation.base_salary_cra_code", "worker.nif", "region_config.irpf_regime"]
    ∧ jGet2 c5Doc "tables" "cotization_year" = some (.num 0) :=
  ⟨rfl, rfl⟩

/-- C7: resolving the `region_config.irpf_regime` gap interactively with the
non-empty input `"BOGUS"` fails — whatever the document — with the
`ValueError` naming the offending value and listing the three permitted
regimes (the message occurrence of each name is checked explicitly), and the
error carries the document unchanged. -/
theorem irpf_enum_rejection (doc : JVal) (rest : List String) :
    resolve_missing doc [irpfRegimeGap] .ask ("BOGUS" :: rest)
      = .error ("Valor \x27BOGUS\x27 no está en [\x27AEAT\x27, \x27FORAL_NAVARRA\x27, \x27FORAL_PV\x27]",
                doc)
    ∧ (["BOGUS", "AEAT", "FORAL_NAVARRA", "FORAL_PV"].all
        (fun w => occursIn w.toList
          ("Valor \x27BOGUS\x27 no está en [\x27AEAT\x27, \x27FORAL_NAVARRA\x27, \x27FORAL_PV\x27]").toList))
      = true := by
  refine ⟨rfl, by decide⟩

/-- C3 counterexample: a document whose `region_config` carries no `ccaa` is
returned unchanged by enrichment — in particular no `notes` field is ensured
on its `region_config` substructure. -/
theorem enrich_notes_counterexample :
    enrich_region_config (.obj [("region_config", .obj [])])
        = some (.obj [("region_config", .obj [])])
    ∧ (enrich_region_config (.obj [("region_config", .obj [])])).bind
        (fun r => jGet2 r "region_config" "notes") = none :=
  ⟨rfl, rfl⟩

/-- C3 (amended): whenever the document carries a truthy region identifier
`region_config.ccaa` and enrichment succeeds, the enriched document's
`region_config` has a `notes` field — the existing value if one was present,
the empty string otherwise.  When no truthy identifier is present the document
is returned unchanged (see the counterexample), so no `notes` field is added. -/
theorem enrich_ensures_notes
    (fs rcf : JObj) (r : JVal)
    (hrc : assocGet fs "region_config" = some (.obj rcf))
    (hcc : truthy ((assocGet rcf "ccaa").getD .null) = true)
    (henr : enrich_region_config (.obj fs) = some r) :
    jGet2 r "region_config" "notes" = some ((assocGet rcf "notes").getD (.str "")) := by
  rw [enrich_region_config, deepCopyJson_eq] at henr
  have hncc : (!truthy ((assocGet rcf "ccaa").getD .null)) = false := by rw [hcc]; rfl
  have hsd : assocSetdefault fs "region_config" (.obj []) = (.obj rcf, fs) := by
    unfold assocSetdefault; rw [hrc]
  simp only [enrichData, hrc, Option.getD_some, hncc, Bool.false_eq_true, if_false, hsd]
    at henr
  have hnotes : assocGet (assocSetdefault rcf "notes" (.str "")).2 "notes"
      = some ((assocGet rcf "notes").getD (.str "")) := assocGet_assocSetdefault_self ..
  split at henr
  · injection henr with henr
    rw [← henr]
    simp [jGet2, assocGet_assocSet_self, hnotes]
  · split at henr <;> try exact Option.noConfusion henr
    · split at henr <;> try exact Option.noConfusion henr
      split at henr <;> try exact Option.noConfusion henr
      split at henr <;> try exact Option.noConfusion henr
      rename_i tag htag
      injection henr with henr
      rw [← henr]
      have hne : assocGet (assocSet (assocSetdefault rcf "notes" (.str "")).2
          "irpf_regime" tag) "notes"
          = assocGet (assocSetdefault rcf "notes" (.str "")).2 "notes" :=
        assocGet_assocSet_ne _ _ (by decide)
      simp [jGet2, assocGet_assocSet_self, hne, hnotes]
    · injection henr with henr
      rw [← henr]
      simp [jGet2, assocGet_assocSet_self, hnotes]

/-- Witness for the amended C3 at a document with a truthy `ccaa`. -/
theorem enrich_ensures_notes_witness :
    jGet2 c3wRes "region_config" "notes" = some (.str "") :=
  enrich_ensures_notes [("region_config", .obj [("ccaa", .str "Cataluña")])]
    [("ccaa", .str "Cataluña")] c3wRes rfl rfl rfl

/-- C9: if `region_config.irpf_regime` is already present (key set, whatever
its value, since Python's `in` tests key presence), enrichment preserves it;
in particular enriching an already-enriched document leaves the regime tag
unchanged. -/
theorem enrich_preserves_regime
    (fs rcf : JObj) (v : JVal)
    (hrc : assocGet fs "region_config" = some (.obj rcf))
    (hreg : assocGet rcf "irpf_regime" = some v) :
    (enrich_region_config (.obj fs)).bind
      (fun r => jGet2 r "region_config" "irpf_regime") = some v := by
  rw [enrich_region_config, deepCopyJson_eq]
  have hsd : assocSetdefault fs "region_config" (.obj []) = (.obj rcf, fs) := by
    unfold assocSetdefault; rw [hrc]
  have hregN : assocGet (assocSetdefault rcf "notes" (.str "")).2 "irpf_regime"
      = some v := by
    rw [assocGet_assocSetdefault_ne _ _ (by decide)]
    exact hreg
  simp only [enrichData, hrc, Option.getD_some, hsd]
  by_cases hcc : truthy ((assocGet rcf "ccaa").getD .null) = true
  · have hncc : (!truthy ((assocGet rcf "ccaa").getD .null)) = false := by rw [hcc]; rfl
    simp only [hncc, Bool.false_eq_true, if_false, hregN, Option.isSome_some, if_pos]
    simp [jGet2, assocGet_assocSet_self, hregN]
  · have hncc : (!truthy ((assocGet rcf "ccaa").getD .null)) = true := by
      cases hx : truthy ((assocGet rcf "ccaa").getD .null) with
      | false => rfl
      | true => exact absurd hx hcc
    simp only [hncc, if_pos]
    simp [jGet2, hrc, hreg]

/-- Witness for C9: an already-enriched document (regime tag set to "AEAT",
`ccaa` "País Vasco" whose mapping would say FORAL_PV) keeps its regime tag. -/
theorem enrich_preserves_regime_witness :
    (enrich_region_config (.obj [("region_config",
        .obj [("ccaa", .str "País Vasco"), ("irpf_regime", .str "AEAT")])])).bind
      (fun r => jGet2 r "region_config" "irpf_regime") = some (.str "AEAT") :=
  enrich_preserves_regime
    [("region_config", .obj [("ccaa", .str "País Vasco"), ("irpf_regime", .str "AEAT")])]
    [("ccaa", .str "País Vasco"), ("irpf_regime", .str "AEAT")] (.str "AEAT") rfl rfl

/-- Membership: `m` belongs to a conditional chunk only when the condition fired and `m`
is the chunk's gap. -/
theorem mem_chunk {m m0 : MissingField} {b : Bool}
    (h : m ∈ (if b then [m0] else [])) : b = true ∧ m = m0 := by
  cases b with
  | false => simp at h
  | true => simpa using h

/-- C5 (amended): every gap the detector reports lies at a path whose current
value in the input document is falsy (absent, `None`, `0`, empty string / 
collection) — not merely absent, as the counterexample shows; for the
special-cased allowance gap, no matching variable-pay entry exists
(`hasPlusInComp` is `false`). -/
theorem detect_gaps_are_falsy
    (fs : JObj) (gaps : List MissingField) (d1 : JVal) (m : MissingField)
    (hdet : detect_missing (.obj fs) = some (gaps, d1)) (hm : m ∈ gaps) :
    (m.path = "compensation.plus_convenio_amount" ∧ hasPlusInComp fs = some false)
    ∨ ∃ k1 k2, pySplit m.path '.' = [k1, k2] ∧ truthy (val2 fs k1 k2) = false := by
  obtain ⟨fs', hpa, hpc, cof, pef, tbf, cmf, wkf, rcf, hpfs, hd1, hhpa, hhpc, hcof,
    hpef, htbf, hcmf, hwkf, hrcf, hgaps⟩ := detect_missing_inv hdet
  injection hpfs with hpfs
  subst hpfs
  have hcofF : childF fs "company" = cof := (dictOrAbsent_of_getD_obj hcof).2
  have htbfF : childF fs "tables" = tbf := by
    have h1 : assocGet (detectState1 fs) "tables" = assocGet fs "tables" := by
      rw [detectState1, assocGet_assocSetdefault_ne _ _ (by decide)]
    rw [h1] at htbf
    exact (dictOrAbsent_of_getD_obj htbf).2
  have hcmfF : childF fs "compensation" = cmf := by
    have h1 : assocGet (detectState2 fs) "compensation" = assocGet fs "compensation" := by
      rw [detectState2, assocGet_assocSetdefault_ne _ _ (by decide)]
      rw [detectState1, assocGet_assocSetdefault_ne _ _ (by decide)]
    rw [h1] at hcmf
    exact (dictOrAbsent_of_getD_obj hcmf).2
  have hwkfF : childF fs "worker" = wkf := by
    have h1 : assocGet (detectState2 fs) "worker" = assocGet fs "worker" := by
      rw [detectState2, assocGet_assocSetdefault_ne _ _ (by decide)]
      rw [detectState1, assocGet_assocSetdefault_ne _ _ (by decide)]
    rw [h1] at hwkf
    exact (dictOrAbsent_of_getD_obj hwkf).2
  have hrcfF : childF fs "region_config" = rcf := by
    have h1 : assocGet (detectState2 fs) "region_config" = assocGet fs "region_config" := by
      rw [detectState2, assocGet_assocSetdefault_ne _ _ (by decide)]
      rw [detectState1, assocGet_assocSetdefault_ne _ _ (by decide)]
    rw [h1] at hrcf
    exact (dictOrAbsent_of_getD_obj hrcf).2
  subst hgaps
  simp only [detectGaps, List.mem_append] at hm
  rcases hm with ((((((hm | hm) | hm) | hm) | hm) | hm) | hm)
  · obtain ⟨hb, hmeq⟩ := mem_chunk hm
    subst hmeq
    refine Or.inl ⟨rfl, ?_⟩
    rw [hhpc]
    obtain ⟨_, hpc0⟩ := (Bool.and_eq_true _ _).mp hb
    cases hpc with
    | false => rfl
    | true => simp at hpc0
  · obtain ⟨hb, hmeq⟩ := mem_chunk hm
    subst hmeq
    refine Or.inr ⟨"company", "atep_tariff_pct", rfl, ?_⟩
    obtain ⟨_, h2⟩ := (Bool.and_eq_true _ _).mp hb
    rw [val2, childGet, hcofF]
    simpa using h2
  · obtain ⟨hb, hmeq⟩ := mem_chunk hm
    subst hmeq
    refine Or.inr ⟨"tables", "cotization_year", rfl, ?_⟩
    rw [val2, childGet, htbfF]
    simpa using hb
  · obtain ⟨hb, hmeq⟩ := mem_chunk hm
    subst hmeq
    refine Or.inr ⟨"tables", "irpf_year", rfl, ?_⟩
    rw [val2, childGet, htbfF]
    simpa using hb
  · obtain ⟨hb, hmeq⟩ := mem_chunk hm
    subst hmeq
    refine Or.inr ⟨"compensation", "base_salary_cra_code", rfl, ?_⟩
    rw [val2, childGet, hcmfF]
    simpa using hb
  · obtain ⟨hb, hmeq⟩ := mem_chunk hm
    subst hmeq
    refine Or.inr ⟨"worker", "nif", rfl, ?_⟩
    rw [val2, childGet, hwkfF]
    simpa using hb
  · obtain ⟨hb, hmeq⟩ := mem_chunk hm
    subst hmeq
    refine Or.inr ⟨"region_config", "irpf_regime", rfl, ?_⟩
    rw [val2, childGet, hrcfF]
    simpa using hb

/-- Witness for the amended C5: the `worker.nif` gap reported on the empty
document lies at a falsy (absent) path. -/
theorem detect_gaps_are_falsy_witness :
    (nifGap.path = "compensation.plus_convenio_amount" ∧ hasPlusInComp [] = some false)
    ∨ ∃ k1 k2, pySplit nifGap.path '.' = [k1, k2] ∧ truthy (val2 [] k1 k2) = false :=
  detect_gaps_are_falsy [] c5wGaps c5wD1 nifGap rfl (by
    rw [show c5wGaps = [atepTariffGap, cotizationYearGap .null, irpfYearGap .null,
      craCodeGap, nifGap, irpfRegimeGap] from rfl]
    exact List.mem_cons_of_mem _ (List.mem_cons_of_mem _ (List.mem_cons_of_mem _
      (List.mem_cons_of_mem _ (List.mem_cons_self _ _)))))

/-- A chunk whose gap does not satisfy `p` contributes no `countP p` hits. -/
theorem countP_chunk_zero {b : Bool} {m : MissingField} {p : MissingField → Bool}
    (hm : p m = false) : (if b then [m] else []).countP p = 0 := by
  cases b <;> simp [hm]

/-- Forward computation of the special-cased value application. -/
theorem applyPlusConvenio_eq {fs cmf : JObj} {vs : List JVal} {amt : Rat}
    {value : JVal} {xs2 : List JVal}
    (hcm : (assocGet fs "compensation").getD (.obj []) = .obj cmf)
    (hvs : (assocGet cmf "variables").getD (.arr []) = .arr vs)
    (hco : pyFloatCoerce value = some amt)
    (hsp : setPlusAmount amt vs = some xs2) :
    applyPlusConvenio (.obj fs) value
      = some (.obj (set2 fs "compensation" "variables" (.arr xs2))) := by
  rcases hsd : assocSetdefault fs "compensation" (.obj []) with ⟨cV, fs1⟩
  have hcV : cV = .obj cmf := by
    have h2 := assocSetdefault_fst fs "compensation" (.obj [])
    rw [hsd] at h2
    simp at h2
    rw [h2, hcm]
  subst hcV
  rcases hsd2 : assocSetdefault cmf "variables" (.arr []) with ⟨vV, cf1⟩
  have hvV : vV = .arr vs := by
    have h2 := assocSetdefault_fst cmf "variables" (.arr [])
    rw [hsd2] at h2
    simp at h2
    rw [h2, hvs]
  subst hvV
  have hfs1 : assocSet fs1 "compensation" (.obj (assocSet cf1 "variables" (.arr xs2)))
      = assocSet fs "compensation" (.obj (assocSet cf1 "variables" (.arr xs2))) := by
    have h2 := assocSet_assocSetdefault fs "compensation" (.obj [])
      (.obj (assocSet cf1 "variables" (.arr xs2)))
    rw [hsd] at h2
    simpa using h2
  have hcf1 : assocSet cf1 "variables" (.arr xs2) = assocSet cmf "variables" (.arr xs2) := by
    have h2 := assocSet_assocSetdefault cmf "variables" (.arr []) (.arr xs2)
    rw [hsd2] at h2
    simpa using h2
  have hcf : childF fs "compensation" = cmf := (dictOrAbsent_of_getD_obj hcm).2
  simp only [applyPlusConvenio, hsd, hsd2, hco, hsp]
  rw [hfs1, hcf1, set2, hcf]

/-- C4: when the collective-agreement allowances contain a "Plus Convenio"
item (any casing) and no variable-pay entry matches, the detector flags
exactly one gap for the monthly amount, and resolving that gap under `default`
appends to `compensation.variables` a fresh item named "Plus Convenio" with
`taxable` and `contributory` true, traceability code "C02" and amount `0.0`
(`newPlusItem 0`), leaving the literal dotted path
`compensation.plus_convenio_amount` unwritten. -/
theorem plus_convenio_gap_and_resolution
    (fs cmf : JObj) (vs : List JVal) (gaps : List MissingField) (d1 : JVal)
    (inputs : List String)
    (hdet : detect_missing (.obj fs) = some (gaps, d1))
    (hpaT : hasPlusInAllowances fs = some true)
    (hcm : (assocGet fs "compensation").getD (.obj []) = .obj cmf)
    (hvs : (assocGet cmf "variables").getD (.arr []) = .arr vs)
    (hnone : anyPlusList vs = some false) :
    gaps.countP (fun m => m.path == "compensation.plus_convenio_amount") = 1
    ∧ resolve_missing (.obj fs) [plusConvenioGap] .default inputs
        = .ok (.obj (set2 fs "compensation" "variables" (.arr (vs ++ [newPlusItem 0]))),
               ["Valor por defecto aplicado en " ++ plusConvenioGap.path ++ ": "
                 ++ pyStr plusConvenioGap.default])
    ∧ childGet (set2 fs "compensation" "variables" (.arr (vs ++ [newPlusItem 0])))
        "compensation" "plus_convenio_amount"
      = childGet fs "compensation" "plus_convenio_amount" := by
  have hpcF : hasPlusInComp fs = some false := by
    unfold hasPlusInComp
    rw [hcm]
    show anyPlusName ((assocGet cmf "variables").getD (.arr [])) = some false
    rw [hvs]
    exact hnone
  refine ⟨?_, ?_, ?_⟩
  · obtain ⟨fs', hpaB, hpcB, cof, pef, tbf, cmf', wkf', rcf', hpfs, hd1', hhpa, hhpc,
      hcof, hpef, htbf, hcmf, hwkf, hrcf, hgaps⟩ := detect_missing_inv hdet
    injection hpfs with hpfs
    subst hpfs
    have e1 : hpaB = true := Option.some.inj (hhpa.symm.trans hpaT)
    have e2 : hpcB = false := Option.some.inj (hhpc.symm.trans hpcF)
    subst e1
    subst e2
    subst hgaps
    simp only [detectGaps, List.countP_append]
    rw [countP_chunk_zero (m := atepTariffGap) (by decide),
        countP_chunk_zero (m := cotizationYearGap ((assocGet pef "year").getD .null))
          (by rw [cotizationYearGap_path]; decide),
        countP_chunk_zero (m := irpfYearGap ((assocGet pef "year").getD .null))
          (by rw [irpfYearGap_path]; decide),
        countP_chunk_zero (m := craCodeGap) (by decide),
        countP_chunk_zero (m := nifGap) (by decide),
        countP_chunk_zero (m := irpfRegimeGap) (by decide)]
    decide
  · have hav : applyValue (.obj fs) plusConvenioGap plusConvenioGap.default
        = some (.obj (set2 fs "compensation" "variables" (.arr (vs ++ [newPlusItem 0])))) := by
      unfold applyValue
      rw [if_pos (show plusConvenioGap.path = "compensation.plus_convenio_amount" from rfl)]
      exact applyPlusConvenio_eq hcm hvs rfl (setPlusAmount_append 0 hnone)
    unfold resolve_missing
    rw [if_neg (by decide), if_neg (by decide)]
    simp only [resolveLoopAux, stepValue, hav, List.nil_append]
  · exact childGet_set2_ne2 _ _ _ (by decide)

/-- Witness for C4 at a concrete document. -/
theorem plus_convenio_gap_and_resolution_witness :
    c4wGaps.countP (fun m => m.path == "compensation.plus_convenio_amount") = 1
    ∧ resolve_missing (.obj c4wFs) [plusConvenioGap] .default []
        = .ok (.obj (set2 c4wFs "compensation" "variables" (.arr ([] ++ [newPlusItem 0]))),
               ["Valor por defecto aplicado en " ++ plusConvenioGap.path ++ ": "
                 ++ pyStr plusConvenioGap.default])
    ∧ childGet (set2 c4wFs "compensation" "variables" (.arr ([] ++ [newPlusItem 0])))
        "compensation" "plus_convenio_amount"
      = childGet c4wFs "compensation" "plus_convenio_amount" :=
  plus_convenio_gap_and_resolution c4wFs [] [] c4wGaps c4wD1 [] rfl rfl rfl rfl rfl
